import Mathlib

/-!
ArduinoBleOTA: the OTA session state machine.

A shallow embedding of `src/ArduinoBleOTA.cpp`: the frame dispatcher `onWrite`, the three
command handlers, `stopUpload`, `send` and the install tick `update`.

* The object's fields are the record `ArduinoBleOTAClass`.
* `send` appends the status byte to the list `sent` of notifications.
* Every call the source makes through the `storage` pointer is appended to `calls`; the
  answers of the storage (`open`, `maxSize`) come from an `OTAStorage` record.
* `storage` may be the null pointer (`none`). A call through the null pointer has no defined
  behaviour in the source; the embedding returns `none` there, so `some d` always stands for
  an execution that really ran to the end of the handler.
* The two length counters are unsigned 32-bit: `currentLength += length` wraps modulo `2^32`.
* A history of the object is a list of events, each a write to the characteristic or a tick of
  the main loop, with the storage free to answer differently at every event (`runEvents`).
-/

namespace ArduinoBleOTA

/-- One octet of an inbound buffer. -/
abbrev Byte := Fin 256

/-! ## Constants (lines 10-19) -/

def OK : Nat := 0x00
def NOK : Nat := 0x01
def INCORRECT_FORMAT : Nat := 0x02
def INCORRECT_FIRMWARE_SIZE : Nat := 0x03
def CHECKSUM_ERROR : Nat := 0x04
def INTERNAL_STORAGE_ERROR : Nat := 0x05

def BEGIN : Nat := 0x10
def PACKAGE : Nat := 0x11
def END : Nat := 0x12

/-- Modelled from the spec: the width of `currentLength` and `firmwareLength`, declared in the
header that is not part of the sources ("unsigned 32-bit"). -/
def UINT32_MOD : Nat := 2 ^ 32

/-! ## Collaborators -/

/-- A call made through the `storage` pointer, in the order the source makes it. -/
inductive StorageCall where
  | open_ (length : Nat)
  | maxSize
  | write (b : Byte)
  | close
  | apply_
  | clear
  deriving DecidableEq, Repr

/-- The answers of the storage back end while one frame is handled: the result of
`open(length)` and the value of `maxSize()`. -/
structure OTAStorage where
  open_ : Nat → Bool
  maxSize : Nat

/-- The checksum object `crc` (an external library): the accumulator after `reset()`, the
effect of `update(byte)` on the accumulator, and the value of `finalize()`. -/
structure CRC32 where
  reset : Nat
  update : Nat → Byte → Nat
  finalize : Nat → Nat

/-- One step of the reflected CRC-32 shift register (polynomial `0xEDB88320`). -/
def crc32Shift (state : Nat) : Nat :=
  if state % 2 = 1 then (state / 2) ^^^ 0xEDB88320 else state / 2

/-- Modelled from the spec: the `CRC32` library object is not part of the sources; this is the
standard CRC-32 (reflected, initial value and final xor `0xFFFFFFFF`) with the
reset/update/finalize lifecycle of the glossary. -/
def standardCRC32 : CRC32 where
  reset := 0xFFFFFFFF
  update := fun state b => crc32Shift^[8] (state ^^^ b.val)
  finalize := fun state => state ^^^ 0xFFFFFFFF

/-! ## State -/

/-- The data members of `ArduinoBleOTAClass` that the handlers read and write. -/
structure ArduinoBleOTAClass where
  updating : Bool
  installing : Bool
  firmwareLength : Nat
  currentLength : Nat
  crc : Nat
  deriving DecidableEq, Repr

/-- The object together with what it has done to the outside: the status bytes notified and
the storage calls made, oldest first. -/
structure Device where
  ota : ArduinoBleOTAClass
  sent : List Nat
  calls : List StorageCall
  deriving DecidableEq, Repr

/-- A device in state `s` that has not yet notified or called anything. -/
def Device.start (s : ArduinoBleOTAClass) : Device := ⟨s, [], []⟩

/-- The object before any frame: no transfer, not installing, both counters zero. The
accumulator `acc` is whatever the checksum object holds after its construction. -/
def initial (acc : Nat) : ArduinoBleOTAClass :=
  { updating := false, installing := false, firmwareLength := 0, currentLength := 0,
    crc := acc }

/-! ## The handlers -/

/-- A call `storage->f(...)`: undefined when `storage` is null, otherwise the call is made. -/
def call (c : StorageCall) (storage : Option OTAStorage) (d : Device) : Option Device :=
  match storage with
  | none => none
  | some _ => some { d with calls := d.calls ++ [c] }

/-- The method `send(head)` (lines 194-198): one notification carrying one byte. -/
def send (head : Nat) (d : Device) : Device :=
  { d with sent := d.sent ++ [head] }

/-- The method `stopUpload()` (lines 200-206): `clear`, `close`, then the three fields. -/
def stopUpload (storage : Option OTAStorage) (d : Device) : Option Device :=
  (call .clear storage d).bind fun d =>
  (call .close storage d).bind fun d =>
  some { d with ota := { d.ota with updating := false, currentLength := 0, firmwareLength := 0 } }

/-- The read `*reinterpret_cast<const uint32_t*>(data)` on a little-endian target: the first
four bytes, least significant first. -/
def readUint32 (data : List Byte) : Nat :=
  match data with
  | b0 :: b1 :: b2 :: b3 :: _ => b0.val + 256 * b1.val + 65536 * b2.val + 16777216 * b3.val
  | _ => 0

/-- The calls of `storage->maxSize() and currentLength > storage->maxSize()` (line 116): the
second call is made only when the first did not return zero. -/
def capacityQueries (st : OTAStorage) : List StorageCall :=
  if st.maxSize ≠ 0 then [StorageCall.maxSize, StorageCall.maxSize] else [StorageCall.maxSize]

/-- The method `handleBegin(data, length)` (lines 97-127). -/
def handleBegin (crc : CRC32) (storage : Option OTAStorage) (data : List Byte) (d : Device) :
    Option Device :=
  (if d.ota.updating then stopUpload storage d else some d).bind fun d =>
  if data.length ≠ 4 then
    some (send INCORRECT_FORMAT d)
  else
    let d := { d with ota := { d.ota with firmwareLength := readUint32 data } }
    match storage with
    | none =>
      some (send INTERNAL_STORAGE_ERROR { d with ota := { d.ota with firmwareLength := 0 } })
    | some st =>
      let d := { d with calls := d.calls ++ [StorageCall.open_ d.ota.firmwareLength] }
      if st.open_ d.ota.firmwareLength = false then
        some (send INTERNAL_STORAGE_ERROR { d with ota := { d.ota with firmwareLength := 0 } })
      else
        let d := { d with calls := d.calls ++ capacityQueries st }
        if st.maxSize ≠ 0 ∧ d.ota.currentLength > st.maxSize then
          (stopUpload storage d).map (send INCORRECT_FIRMWARE_SIZE)
        else
          some (send OK
            { d with ota := { d.ota with currentLength := 0, updating := true,
                                         crc := crc.reset } })

/-- The loop of `handlePackage` (lines 146-150): each byte is written, then folded in. -/
def writeLoop (crc : CRC32) (storage : Option OTAStorage) : List Byte → Device → Option Device
  | [], d => some d
  | b :: rest, d =>
    (call (.write b) storage d).bind fun d =>
    writeLoop crc storage rest { d with ota := { d.ota with crc := crc.update d.ota.crc b } }

/-- The method `handlePackage(data, length)` (lines 129-153). -/
def handlePackage (crc : CRC32) (storage : Option OTAStorage) (data : List Byte) (d : Device) :
    Option Device :=
  if d.ota.updating = false then
    some (send NOK d)
  else
    let d := { d with ota := { d.ota with
      currentLength := (d.ota.currentLength + data.length) % UINT32_MOD } }
    if d.ota.currentLength > d.ota.firmwareLength then
      (stopUpload storage d).map (send INCORRECT_FIRMWARE_SIZE)
    else
      (writeLoop crc storage data d).map (send OK)

/-- The method `handleEnd(data, length)` (lines 155-184). -/
def handleEnd (crc : CRC32) (storage : Option OTAStorage) (data : List Byte) (d : Device) :
    Option Device :=
  if d.ota.updating = false then
    some (send NOK d)
  else if d.ota.currentLength ≠ d.ota.firmwareLength then
    (stopUpload storage d).map (send INCORRECT_FIRMWARE_SIZE)
  else if data.length ≠ 4 then
    some (send INCORRECT_FORMAT d)
  else if crc.finalize d.ota.crc ≠ readUint32 data then
    (stopUpload storage d).map (send CHECKSUM_ERROR)
  else
    some (send OK { d with ota := { d.ota with installing := true } })

/-- The callback `onWrite(characteristic)` (lines 68-95) on the value written to the
characteristic. -/
def onWrite (crc : CRC32) (storage : Option OTAStorage) (value : List Byte) (d : Device) :
    Option Device :=
  match value with
  | [] => some (send INCORRECT_FORMAT d)
  | op :: data =>
    if op.val = BEGIN then handleBegin crc storage data d
    else if op.val = PACKAGE then handlePackage crc storage data d
    else if op.val = END then handleEnd crc storage data d
    else some (send INCORRECT_FORMAT d)

/-- The method `handleInstall()` (lines 186-192) up to the final `while (true)`, which never
returns. -/
def handleInstall (storage : Option OTAStorage) (d : Device) : Option Device :=
  (call .close storage d).bind fun d => call .apply_ storage d

/-- The method `update()` (lines 62-66). The flag tells whether control stays in
`handleInstall`. -/
def update (storage : Option OTAStorage) (d : Device) : Option (Device × Bool) :=
  if d.ota.installing then (handleInstall storage d).map fun d => (d, true)
  else some (d, false)

/-- The frames of a list handled one after the other. -/
def run (crc : CRC32) (storage : Option OTAStorage) : List (List Byte) → Device → Option Device
  | [], d => some d
  | value :: rest, d => (onWrite crc storage value d).bind (run crc storage rest)

/-- A BEGIN frame: opcode `0x10` followed by the payload. -/
def beginFrame (payload : List Byte) : List Byte := (0x10 : Byte) :: payload

/-- A PACKAGE frame: opcode `0x11` followed by the payload. -/
def packageFrame (payload : List Byte) : List Byte := (0x11 : Byte) :: payload

/-- An END frame: opcode `0x12` followed by the payload. -/
def endFrame (payload : List Byte) : List Byte := (0x12 : Byte) :: payload

/-- What `stopUpload` leaves of the object: no transfer, both counters zero. -/
def aborted (s : ArduinoBleOTAClass) : ArduinoBleOTAClass :=
  { s with updating := false, currentLength := 0, firmwareLength := 0 }

/-- The status bytes of lines 10-15. -/
def statusCodes : List Nat :=
  [OK, NOK, INCORRECT_FORMAT, INCORRECT_FIRMWARE_SIZE, CHECKSUM_ERROR, INTERNAL_STORAGE_ERROR]

/-! ## Sequences of frames and ticks -/

/-- What happens to the object from outside: a write to the characteristic (`onWrite`) or a
call of `update()` from the main loop. Each carries the storage pointer and the answers the
storage gives while the event is handled, so the storage may behave differently every time. -/
inductive Event where
  | write (storage : Option OTAStorage) (value : List Byte)
  | tick (storage : Option OTAStorage)

/-- The storage pointer the object holds while an event is handled. -/
def Event.storage : Event → Option OTAStorage
  | Event.write storage _ => storage
  | Event.tick storage => storage

/-- One event. The flag tells whether control stays in `handleInstall` for good. -/
def step (crc : CRC32) (e : Event) (d : Device) : Option (Device × Bool) :=
  match e with
  | Event.write storage value => (onWrite crc storage value d).map fun d => (d, false)
  | Event.tick storage => update storage d

/-- The events of a list handled one after the other; once `update()` has entered
`handleInstall` nothing further is handled. -/
def runEvents (crc : CRC32) : List Event → Device → Option (Device × Bool)
  | [], d => some (d, false)
  | e :: rest, d =>
    match step crc e d with
    | none => none
    | some (d, true) => some (d, true)
    | some (d, false) => runEvents crc rest d

/-- The effect of one storage call on the count of bytes written since the storage was last
opened: `open` starts the count over, `write` adds one. -/
def countWrite (n : Nat) (c : StorageCall) : Nat :=
  match c with
  | StorageCall.open_ _ => 0
  | StorageCall.write _ => n + 1
  | _ => n

/-- The number of `write` calls made since the last `open` call of a call trace. -/
def writesSinceOpen (calls : List StorageCall) : Nat :=
  calls.foldl countWrite 0

/-- The byte `b` with bit `k` inverted. -/
def flipBit (b : Byte) (k : Fin 8) : Byte :=
  ⟨(b.val ^^^ 2 ^ k.val) % 256, Nat.mod_lt _ (by decide)⟩

/-! ## Basic facts about the handlers -/

set_option maxRecDepth 100000 in
/-- The check value of the standard CRC-32: the ASCII digits `123456789` give `0xCBF43926`. -/
theorem standardCRC32_check :
    standardCRC32.finalize
      (([0x31, 0x32, 0x33, 0x34, 0x35, 0x36, 0x37, 0x38, 0x39] : List Byte).foldl
        standardCRC32.update standardCRC32.reset) = 0xCBF43926 := by
  decide

/-- The dispatcher hands a buffer starting with `0x10` to `handleBegin`. -/
theorem onWrite_beginFrame (crc : CRC32) (storage : Option OTAStorage) (data : List Byte)
    (d : Device) : onWrite crc storage (beginFrame data) d = handleBegin crc storage data d := rfl

/-- The dispatcher hands a buffer starting with `0x11` to `handlePackage`. -/
theorem onWrite_packageFrame (crc : CRC32) (storage : Option OTAStorage) (data : List Byte)
    (d : Device) :
    onWrite crc storage (packageFrame data) d = handlePackage crc storage data d := rfl

/-- The dispatcher hands a buffer starting with `0x12` to `handleEnd`. -/
theorem onWrite_endFrame (crc : CRC32) (storage : Option OTAStorage) (data : List Byte)
    (d : Device) : onWrite crc storage (endFrame data) d = handleEnd crc storage data d := rfl

/-- With a storage attached, `stopUpload` calls `clear` and `close` and resets the fields. -/
theorem stopUpload_some (st : OTAStorage) (d : Device) :
    stopUpload (some st) d =
      some ⟨aborted d.ota, d.sent, d.calls ++ [StorageCall.clear, StorageCall.close]⟩ := by
  simp [stopUpload, call, aborted]

/-- With a storage attached, the write loop writes every byte in order and folds it in. -/
theorem writeLoop_some (crc : CRC32) (st : OTAStorage) (data : List Byte) (d : Device) :
    writeLoop crc (some st) data d =
      some ⟨{ d.ota with crc := data.foldl crc.update d.ota.crc }, d.sent,
            d.calls ++ data.map StorageCall.write⟩ := by
  induction data generalizing d with
  | nil => simp [writeLoop]
  | cons b rest ih => simp [writeLoop, call, ih]

/-- The write loop sends nothing. -/
theorem writeLoop_sent (crc : CRC32) (storage : Option OTAStorage) (data : List Byte)
    (d d' : Device) (h : writeLoop crc storage data d = some d') : d'.sent = d.sent := by
  cases storage with
  | none =>
    cases data with
    | nil =>
      simp [writeLoop] at h
      rw [h]
    | cons b rest => simp [writeLoop, call] at h
  | some st =>
    simp [writeLoop_some] at h
    subst h
    rfl

/-- A PACKAGE frame that fits: the counter advances without wrapping, every byte is written
and folded into the checksum, and the answer is OK. -/
theorem handlePackage_fits (crc : CRC32) (st : OTAStorage) (data : List Byte) (d : Device)
    (hrecv : d.ota.updating = true)
    (hfit : d.ota.currentLength + data.length ≤ d.ota.firmwareLength)
    (hfw : d.ota.firmwareLength < UINT32_MOD) :
    handlePackage crc (some st) data d =
      some ⟨{ d.ota with currentLength := d.ota.currentLength + data.length,
                         crc := data.foldl crc.update d.ota.crc },
            d.sent ++ [OK], d.calls ++ data.map StorageCall.write⟩ := by
  have hmod : (d.ota.currentLength + data.length) % UINT32_MOD =
      d.ota.currentLength + data.length := Nat.mod_eq_of_lt (lt_of_le_of_lt hfit hfw)
  simp [handlePackage, hrecv, hmod, Nat.not_lt.mpr hfit, writeLoop_some, send]

/-- A PACKAGE frame that does not fit, the sum staying below `2^32`: the transfer is aborted,
nothing of the frame is written or folded in, and the answer is INCORRECT_FIRMWARE_SIZE. -/
theorem handlePackage_too_long (crc : CRC32) (st : OTAStorage) (data : List Byte) (d : Device)
    (hrecv : d.ota.updating = true)
    (hover : d.ota.firmwareLength < d.ota.currentLength + data.length)
    (hsum : d.ota.currentLength + data.length < UINT32_MOD) :
    handlePackage crc (some st) data d =
      some ⟨aborted d.ota, d.sent ++ [INCORRECT_FIRMWARE_SIZE],
            d.calls ++ [StorageCall.clear, StorageCall.close]⟩ := by
  simp [handlePackage, hrecv, Nat.mod_eq_of_lt hsum, hover, stopUpload_some, send, aborted]

/-- PACKAGE frames that together fit: all are answered OK, the bytes are written in arrival
order and the accumulator is the fold of `update` over their concatenation. -/
theorem run_packages (crc : CRC32) (st : OTAStorage) (chunks : List (List Byte)) (d : Device)
    (hrecv : d.ota.updating = true)
    (hfit : d.ota.currentLength + chunks.flatten.length ≤ d.ota.firmwareLength)
    (hfw : d.ota.firmwareLength < UINT32_MOD) :
    run crc (some st) (chunks.map packageFrame) d =
      some ⟨{ d.ota with currentLength := d.ota.currentLength + chunks.flatten.length,
                         crc := chunks.flatten.foldl crc.update d.ota.crc },
            d.sent ++ List.replicate chunks.length OK,
            d.calls ++ chunks.flatten.map StorageCall.write⟩ := by
  induction chunks generalizing d with
  | nil => simp [run]
  | cons c rest ih =>
    simp only [List.flatten_cons, List.length_append] at hfit
    have hstep := handlePackage_fits crc st c d hrecv (by omega) hfw
    have hrest := ih ⟨{ d.ota with currentLength := d.ota.currentLength + c.length,
                                   crc := c.foldl crc.update d.ota.crc },
        d.sent ++ [OK], d.calls ++ c.map StorageCall.write⟩ hrecv
      (by show d.ota.currentLength + c.length + rest.flatten.length ≤ d.ota.firmwareLength
          omega) hfw
    simp only [List.map_cons, run, onWrite_packageFrame, hstep, Option.some_bind]
    refine hrest.trans ?_
    simp [List.replicate_succ, Nat.add_assoc]

/-- Four bytes read as an unsigned 32-bit value stay below `2^32`. -/
theorem readUint32_lt (data : List Byte) : readUint32 data < UINT32_MOD := by
  unfold readUint32 UINT32_MOD
  split
  · rename_i b0 b1 b2 b3 _
    have h0 := b0.isLt
    have h1 := b1.isLt
    have h2 := b2.isLt
    have h3 := b3.isLt
    omega
  · norm_num

/-- Every value below `2^32` is declared by some 4-byte payload. -/
theorem exists_payload (n : Nat) (hn : n < UINT32_MOD) :
    ∃ data : List Byte, data.length = 4 ∧ readUint32 data = n := by
  unfold UINT32_MOD at hn
  refine ⟨[⟨n % 256, by omega⟩, ⟨n / 256 % 256, by omega⟩, ⟨n / 65536 % 256, by omega⟩,
    ⟨n / 16777216, by omega⟩], rfl, ?_⟩
  simp only [readUint32]
  omega

/-- A BEGIN frame with a 4-byte payload that the storage opens is accepted whenever the
received counter is zero once a running transfer has been stopped. -/
theorem handleBegin_accepted (crc : CRC32) (st : OTAStorage) (data : List Byte) (d : Device)
    (hlen : data.length = 4) (hopen : st.open_ (readUint32 data) = true)
    (hzero : d.ota.updating = false → d.ota.currentLength = 0) :
    handleBegin crc (some st) data d =
      some ⟨⟨true, d.ota.installing, readUint32 data, 0, crc.reset⟩, d.sent ++ [OK],
            d.calls ++ (if d.ota.updating then [StorageCall.clear, StorageCall.close] else [])
              ++ [StorageCall.open_ (readUint32 data)] ++ capacityQueries st⟩ := by
  cases hu : d.ota.updating
  · simp [handleBegin, hu, hlen, hopen, hzero hu, send]
  · simp [handleBegin, hu, hlen, hopen, stopUpload_some, aborted, send]

/-- A BEGIN frame answered OK has set up a transfer: `updating` set, the received counter at
zero, the declared size read from the 4-byte payload, the accumulator reset. -/
theorem handleBegin_ok (crc : CRC32) (st : OTAStorage) (data : List Byte) (d d' : Device)
    (h : handleBegin crc (some st) data d = some d') (hok : d'.sent = d.sent ++ [OK]) :
    d'.ota.updating = true ∧ d'.ota.currentLength = 0 ∧
      d'.ota.firmwareLength = readUint32 data ∧ d'.ota.crc = crc.reset ∧
      d'.calls = d.calls ++ (if d.ota.updating then [StorageCall.clear, StorageCall.close]
        else []) ++ [StorageCall.open_ (readUint32 data)] ++ capacityQueries st := by
  unfold handleBegin at h
  cases hu : d.ota.updating <;>
    simp only [hu, stopUpload_some, Option.some_bind, if_true, if_false,
      Bool.false_eq_true] at h <;>
    split_ifs at h <;> simp [send, stopUpload_some] at h <;> subst h <;>
    simp_all [INCORRECT_FORMAT, INTERNAL_STORAGE_ERROR, INCORRECT_FIRMWARE_SIZE, OK]

/-- Frames handled one after the other: a list of frames followed by another. -/
theorem run_append (crc : CRC32) (storage : Option OTAStorage) (xs ys : List (List Byte))
    (d : Device) :
    run crc storage (xs ++ ys) d = (run crc storage xs d).bind (run crc storage ys) := by
  induction xs generalizing d with
  | nil => simp [run]
  | cons x rest ih =>
    simp only [List.cons_append, run]
    cases onWrite crc storage x d with
    | none => simp
    | some d1 => simp [ih]

/-- An accepted BEGIN frame followed by PACKAGE frames that together fit the declared size. -/
theorem run_begin_packages (crc : CRC32) (st : OTAStorage) (size : List Byte)
    (chunks : List (List Byte)) (d : Device)
    (hsize : size.length = 4) (hopen : st.open_ (readUint32 size) = true)
    (hzero : d.ota.updating = false → d.ota.currentLength = 0)
    (hfit : chunks.flatten.length ≤ readUint32 size) :
    run crc (some st) (beginFrame size :: chunks.map packageFrame) d =
      some ⟨⟨true, d.ota.installing, readUint32 size, chunks.flatten.length,
              chunks.flatten.foldl crc.update crc.reset⟩,
            d.sent ++ List.replicate (chunks.length + 1) OK,
            d.calls ++ (if d.ota.updating then [StorageCall.clear, StorageCall.close] else [])
              ++ [StorageCall.open_ (readUint32 size)] ++ capacityQueries st
              ++ chunks.flatten.map StorageCall.write⟩ := by
  have hbegin := handleBegin_accepted crc st size d hsize hopen hzero
  have hrest := run_packages crc st chunks
    ⟨⟨true, d.ota.installing, readUint32 size, 0, crc.reset⟩, d.sent ++ [OK],
      d.calls ++ (if d.ota.updating then [StorageCall.clear, StorageCall.close] else [])
        ++ [StorageCall.open_ (readUint32 size)] ++ capacityQueries st⟩
    rfl
    (by show 0 + chunks.flatten.length ≤ readUint32 size
        omega)
    (readUint32_lt size)
  simp only [run, onWrite_beginFrame, hbegin, Option.some_bind]
  refine hrest.trans ?_
  simp [List.replicate_succ]

/-- With a storage attached, `handleBegin` sends exactly one of the six status bytes. -/
theorem handleBegin_one_status (crc : CRC32) (st : OTAStorage) (data : List Byte) (d : Device) :
    ∃ d' status, handleBegin crc (some st) data d = some d' ∧
      d'.sent = d.sent ++ [status] ∧ status ∈ statusCodes := by
  unfold handleBegin
  cases hu : d.ota.updating <;>
    simp only [stopUpload_some, Option.some_bind, if_true, if_false, Bool.false_eq_true] <;>
    split_ifs <;> simp [send, statusCodes, stopUpload_some]

/-- With a storage attached, `handlePackage` sends exactly one of the six status bytes. -/
theorem handlePackage_one_status (crc : CRC32) (st : OTAStorage) (data : List Byte)
    (d : Device) :
    ∃ d' status, handlePackage crc (some st) data d = some d' ∧
      d'.sent = d.sent ++ [status] ∧ status ∈ statusCodes := by
  unfold handlePackage
  simp only [stopUpload_some, writeLoop_some]
  split_ifs <;> simp [send, statusCodes]

/-- With a storage attached, `handleEnd` sends exactly one of the six status bytes. -/
theorem handleEnd_one_status (crc : CRC32) (st : OTAStorage) (data : List Byte) (d : Device) :
    ∃ d' status, handleEnd crc (some st) data d = some d' ∧
      d'.sent = d.sent ++ [status] ∧ status ∈ statusCodes := by
  unfold handleEnd
  simp only [stopUpload_some]
  split_ifs <;> simp [send, statusCodes]

/-- Whatever the storage, `handlePackage` answers NOK, INCORRECT_FIRMWARE_SIZE or OK. -/
theorem handlePackage_sent (crc : CRC32) (storage : Option OTAStorage) (data : List Byte)
    (d d' : Device) (h : handlePackage crc storage data d = some d') :
    ∃ status, d'.sent = d.sent ++ [status] ∧
      (status = NOK ∨ status = INCORRECT_FIRMWARE_SIZE ∨ status = OK) := by
  cases hu : d.ota.updating
  · simp only [handlePackage, hu, if_true] at h
    obtain rfl := Option.some.inj h
    exact ⟨NOK, rfl, by simp⟩
  · by_cases hover : (d.ota.currentLength + data.length) % UINT32_MOD > d.ota.firmwareLength
    · simp only [handlePackage, hu, hover, if_true, if_false, Bool.true_eq_false,
        Option.map_eq_some'] at h
      obtain ⟨d0, h0, rfl⟩ := h
      refine ⟨INCORRECT_FIRMWARE_SIZE, ?_, by simp⟩
      cases storage with
      | none => simp [stopUpload, call] at h0
      | some st =>
        rw [stopUpload_some] at h0
        obtain rfl := Option.some.inj h0
        rfl
    · simp only [handlePackage, hu, hover, if_false, Bool.true_eq_false,
        Option.map_eq_some'] at h
      obtain ⟨d0, h0, rfl⟩ := h
      refine ⟨OK, ?_, by simp⟩
      have := writeLoop_sent crc storage data _ d0 h0
      simp [send, this]

/-- Whatever the storage, `handleEnd` answers NOK, INCORRECT_FIRMWARE_SIZE, CHECKSUM_ERROR or
OK, or it answers INCORRECT_FORMAT and has changed nothing else. -/
theorem handleEnd_sent (crc : CRC32) (storage : Option OTAStorage) (data : List Byte)
    (d d' : Device) (h : handleEnd crc storage data d = some d') :
    ∃ status, d'.sent = d.sent ++ [status] ∧
      (status = NOK ∨ status = INCORRECT_FIRMWARE_SIZE ∨ status = CHECKSUM_ERROR ∨
        status = OK ∨ status = INCORRECT_FORMAT ∧ d'.ota = d.ota ∧ d'.calls = d.calls) := by
  have hstop : ∀ (status : Nat) (d0 : Device),
      Option.map (send status) (stopUpload storage d) = some d0 →
        d0.sent = d.sent ++ [status] := by
    intro status d0 h0
    rw [Option.map_eq_some'] at h0
    obtain ⟨d1, h1, rfl⟩ := h0
    cases storage with
    | none => simp [stopUpload, call] at h1
    | some st =>
      rw [stopUpload_some] at h1
      obtain rfl := Option.some.inj h1
      rfl
  cases hu : d.ota.updating
  · simp only [handleEnd, hu, if_true] at h
    obtain rfl := Option.some.inj h
    exact ⟨NOK, rfl, by simp⟩
  · by_cases hne : d.ota.currentLength = d.ota.firmwareLength
    · by_cases hlen : data.length = 4
      · by_cases hcrc : crc.finalize d.ota.crc = readUint32 data
        · simp only [handleEnd, hu, hne, hlen, hcrc, ne_eq, not_true_eq_false, if_false,
            Bool.true_eq_false] at h
          obtain rfl := Option.some.inj h
          exact ⟨OK, rfl, by simp⟩
        · simp only [handleEnd, hu, hne, hlen, hcrc, ne_eq, not_true_eq_false,
            not_false_eq_true, if_true, if_false, Bool.true_eq_false] at h
          exact ⟨CHECKSUM_ERROR, hstop _ _ h, by simp⟩
      · simp only [handleEnd, hu, hne, hlen, ne_eq, not_true_eq_false, not_false_eq_true,
          if_true, if_false, Bool.true_eq_false] at h
        obtain rfl := Option.some.inj h
        exact ⟨INCORRECT_FORMAT, rfl, by simp [send]⟩
    · simp only [handleEnd, hu, hne, ne_eq, not_false_eq_true, if_true, if_false,
        Bool.true_eq_false] at h
      exact ⟨INCORRECT_FIRMWARE_SIZE, hstop _ _ h, by simp⟩

/-- The state in which the counter wraps is reached by a BEGIN frame declaring `2^32 - 1`
bytes that the storage opens, followed by PACKAGE frames carrying `2^32 - 1` bytes in all. -/
theorem wrap_state_reached (crc : CRC32) (st : OTAStorage) (acc : Nat)
    (chunks : List (List Byte))
    (hopen : st.open_ 4294967295 = true) (hlen : chunks.flatten.length = 4294967295) :
    ∃ d, run crc (some st) (beginFrame [255, 255, 255, 255] :: chunks.map packageFrame)
        (Device.start (initial acc)) = some d ∧
      d.ota = ⟨true, false, 4294967295, 4294967295, chunks.flatten.foldl crc.update crc.reset⟩ := by
  have hread : readUint32 [255, 255, 255, 255] = 4294967295 := by rfl
  have hrun := run_begin_packages crc st [255, 255, 255, 255] chunks (Device.start (initial acc))
    rfl (by rw [hread]; exact hopen) (fun _ => rfl) (by rw [hread, hlen])
  refine ⟨_, hrun, ?_⟩
  show (⟨true, false, readUint32 [255, 255, 255, 255], chunks.flatten.length,
      chunks.flatten.foldl crc.update crc.reset⟩ : ArduinoBleOTAClass) = _
  rw [hread, hlen]

/-- With no storage attached and no transfer running, `onWrite` also returns having sent
exactly one of the six status bytes. -/
theorem onWrite_one_status_detached (crc : CRC32) (s : ArduinoBleOTAClass) (value : List Byte)
    (hidle : s.updating = false) :
    ∃ d status, onWrite crc none value (Device.start s) = some d ∧
      d.sent = [status] ∧ status ∈ statusCodes := by
  unfold onWrite
  split
  · exact ⟨_, INCORRECT_FORMAT, rfl, rfl, by simp [statusCodes]⟩
  · split_ifs
    · by_cases hlen : (‹List Byte›).length = 4 <;>
        simp [handleBegin, hidle, hlen, Device.start, send, statusCodes]
    · simp [handlePackage, hidle, Device.start, send, statusCodes]
    · simp [handleEnd, hidle, Device.start, send, statusCodes]
    · exact ⟨_, INCORRECT_FORMAT, rfl, rfl, by simp [statusCodes]⟩

/-- Whatever the storage, a `stopUpload` that returns has made the two calls and reset the
three fields. -/
theorem stopUpload_eq (storage : Option OTAStorage) (d d' : Device)
    (h : stopUpload storage d = some d') :
    d' = ⟨aborted d.ota, d.sent, d.calls ++ [StorageCall.clear, StorageCall.close]⟩ := by
  cases storage with
  | none => simp [stopUpload, call] at h
  | some st =>
    rw [stopUpload_some] at h
    exact (Option.some.inj h).symm

/-- Whatever the storage, a write loop that returns has written every byte in order and
folded it in, and changed nothing else. -/
theorem writeLoop_eq (crc : CRC32) (storage : Option OTAStorage) (data : List Byte)
    (d d' : Device) (h : writeLoop crc storage data d = some d') :
    d' = ⟨{ d.ota with crc := data.foldl crc.update d.ota.crc }, d.sent,
          d.calls ++ data.map StorageCall.write⟩ := by
  cases storage with
  | none =>
    cases data with
    | nil =>
      simp only [writeLoop, Option.some.injEq] at h
      subst h
      simp
    | cons b rest => simp [writeLoop, call] at h
  | some st =>
    rw [writeLoop_some] at h
    exact (Option.some.inj h).symm

/-- The three ways `handlePackage` returns. -/
theorem handlePackage_effect (crc : CRC32) (storage : Option OTAStorage) (data : List Byte)
    (d d' : Device) (h : handlePackage crc storage data d = some d') :
    (d.ota.updating = false ∧ d' = ⟨d.ota, d.sent ++ [NOK], d.calls⟩) ∨
    (d.ota.updating = true ∧
      d.ota.firmwareLength < (d.ota.currentLength + data.length) % UINT32_MOD ∧
      d' = ⟨aborted d.ota, d.sent ++ [INCORRECT_FIRMWARE_SIZE],
            d.calls ++ [StorageCall.clear, StorageCall.close]⟩) ∨
    (d.ota.updating = true ∧
      (d.ota.currentLength + data.length) % UINT32_MOD ≤ d.ota.firmwareLength ∧
      d' = ⟨{ d.ota with
              currentLength := (d.ota.currentLength + data.length) % UINT32_MOD,
              crc := data.foldl crc.update d.ota.crc },
            d.sent ++ [OK], d.calls ++ data.map StorageCall.write⟩) := by
  rcases Bool.eq_false_or_eq_true d.ota.updating with hu | hu
  swap
  · simp only [handlePackage, hu, if_true] at h
    obtain rfl := Option.some.inj h
    exact Or.inl ⟨hu, rfl⟩
  · by_cases hover : (d.ota.currentLength + data.length) % UINT32_MOD > d.ota.firmwareLength
    · simp only [handlePackage, hu, hover, if_true, if_false, Bool.true_eq_false,
        Option.map_eq_some'] at h
      obtain ⟨d0, h0, rfl⟩ := h
      rw [stopUpload_eq _ _ _ h0]
      exact Or.inr (Or.inl ⟨hu, hover, by simp [send, aborted, hu]⟩)
    · simp only [handlePackage, hu, hover, if_false, Bool.true_eq_false,
        Option.map_eq_some'] at h
      obtain ⟨d0, h0, rfl⟩ := h
      rw [writeLoop_eq _ _ _ _ _ h0]
      exact Or.inr (Or.inr ⟨hu, Nat.le_of_not_lt hover, by simp [send, aborted, hu]⟩)

/-- The five ways `handleEnd` returns. -/
theorem handleEnd_effect (crc : CRC32) (storage : Option OTAStorage) (data : List Byte)
    (d d' : Device) (h : handleEnd crc storage data d = some d') :
    (d.ota.updating = false ∧ d' = ⟨d.ota, d.sent ++ [NOK], d.calls⟩) ∨
    (d.ota.updating = true ∧ d.ota.currentLength ≠ d.ota.firmwareLength ∧
      d' = ⟨aborted d.ota, d.sent ++ [INCORRECT_FIRMWARE_SIZE],
            d.calls ++ [StorageCall.clear, StorageCall.close]⟩) ∨
    (d.ota.updating = true ∧ d.ota.currentLength = d.ota.firmwareLength ∧ data.length ≠ 4 ∧
      d' = ⟨d.ota, d.sent ++ [INCORRECT_FORMAT], d.calls⟩) ∨
    (d.ota.updating = true ∧ d.ota.currentLength = d.ota.firmwareLength ∧ data.length = 4 ∧
      crc.finalize d.ota.crc ≠ readUint32 data ∧
      d' = ⟨aborted d.ota, d.sent ++ [CHECKSUM_ERROR],
            d.calls ++ [StorageCall.clear, StorageCall.close]⟩) ∨
    (d.ota.updating = true ∧ d.ota.currentLength = d.ota.firmwareLength ∧ data.length = 4 ∧
      crc.finalize d.ota.crc = readUint32 data ∧
      d' = ⟨{ d.ota with installing := true }, d.sent ++ [OK], d.calls⟩) := by
  rcases Bool.eq_false_or_eq_true d.ota.updating with hu | hu
  swap
  · simp only [handleEnd, hu, if_true] at h
    obtain rfl := Option.some.inj h
    exact Or.inl ⟨hu, rfl⟩
  · by_cases hne : d.ota.currentLength = d.ota.firmwareLength
    · by_cases hlen : data.length = 4
      · by_cases hcrc : crc.finalize d.ota.crc = readUint32 data
        · simp only [handleEnd, hu, hne, hlen, hcrc, ne_eq, not_true_eq_false, if_false,
            Bool.true_eq_false] at h
          obtain rfl := Option.some.inj h
          exact Or.inr (Or.inr (Or.inr (Or.inr
            ⟨hu, hne, hlen, hcrc, by simp [send, aborted, hu, hne]⟩)))
        · simp only [handleEnd, hu, hne, hlen, hcrc, ne_eq, not_true_eq_false,
            not_false_eq_true, if_true, if_false, Bool.true_eq_false,
            Option.map_eq_some'] at h
          obtain ⟨d0, h0, rfl⟩ := h
          rw [stopUpload_eq _ _ _ h0]
          exact Or.inr (Or.inr (Or.inr (Or.inl
            ⟨hu, hne, hlen, hcrc, by simp [send, aborted, hu, hne]⟩)))
      · simp only [handleEnd, hu, hne, hlen, ne_eq, not_true_eq_false, not_false_eq_true,
          if_true, if_false, Bool.true_eq_false] at h
        obtain rfl := Option.some.inj h
        exact Or.inr (Or.inr (Or.inl ⟨hu, hne, hlen, by simp [send, aborted, hu, hne]⟩))
    · simp only [handleEnd, hu, hne, ne_eq, not_false_eq_true, if_true, if_false,
        Bool.true_eq_false, Option.map_eq_some'] at h
      obtain ⟨d0, h0, rfl⟩ := h
      rw [stopUpload_eq _ _ _ h0]
      exact Or.inr (Or.inl ⟨hu, hne, by simp [send, aborted, hu, hne]⟩)

/-- The ways `handleBegin` returns: from the object `d0` left by the implicit restart, either
the payload is malformed, or the storage is absent or refuses to open, or the capacity check
aborts, or the transfer starts. -/
theorem handleBegin_effect (crc : CRC32) (storage : Option OTAStorage) (data : List Byte)
    (d d' : Device) (h : handleBegin crc storage data d = some d') :
    ∃ d0 : Device,
      ((d.ota.updating = true ∧
          d0 = ⟨aborted d.ota, d.sent, d.calls ++ [StorageCall.clear, StorageCall.close]⟩) ∨
        (d.ota.updating = false ∧ d0 = d)) ∧
      ((data.length ≠ 4 ∧ d' = ⟨d0.ota, d0.sent ++ [INCORRECT_FORMAT], d0.calls⟩) ∨
        (data.length = 4 ∧ ∃ cs, (cs = [] ∨ cs = [StorageCall.open_ (readUint32 data)]) ∧
          d' = ⟨{ d0.ota with firmwareLength := 0 }, d0.sent ++ [INTERNAL_STORAGE_ERROR],
                d0.calls ++ cs⟩) ∨
        (data.length = 4 ∧ ∃ st, storage = some st ∧ st.open_ (readUint32 data) = true ∧
          st.maxSize ≠ 0 ∧ st.maxSize < d0.ota.currentLength ∧
          d' = ⟨aborted d0.ota, d0.sent ++ [INCORRECT_FIRMWARE_SIZE],
                d0.calls ++ [StorageCall.open_ (readUint32 data)] ++ capacityQueries st
                  ++ [StorageCall.clear, StorageCall.close]⟩) ∨
        (data.length = 4 ∧ ∃ st, storage = some st ∧ st.open_ (readUint32 data) = true ∧
          ¬ (st.maxSize ≠ 0 ∧ st.maxSize < d0.ota.currentLength) ∧
          d' = ⟨⟨true, d0.ota.installing, readUint32 data, 0, crc.reset⟩, d0.sent ++ [OK],
                d0.calls ++ [StorageCall.open_ (readUint32 data)] ++ capacityQueries st⟩)) := by
  unfold handleBegin at h
  rw [Option.bind_eq_some] at h
  obtain ⟨d0, hpre, hbody⟩ := h
  refine ⟨d0, ?_, ?_⟩
  · rcases Bool.eq_false_or_eq_true d.ota.updating with hu | hu
    · simp only [hu, if_true] at hpre
      exact Or.inl ⟨hu, stopUpload_eq _ _ _ hpre⟩
    · simp only [hu, Bool.false_eq_true, if_false, Option.some.injEq] at hpre
      exact Or.inr ⟨hu, hpre.symm⟩
  · by_cases hlen : data.length = 4
    · cases storage with
      | none =>
        simp only [hlen, ne_eq, not_true_eq_false, if_false, Option.some.injEq] at hbody
        exact Or.inr (Or.inl ⟨hlen, [], Or.inl rfl, by simp [← hbody, send]⟩)
      | some st =>
        by_cases hopen : st.open_ (readUint32 data) = true
        · by_cases hmax : st.maxSize ≠ 0 ∧ st.maxSize < d0.ota.currentLength
          · simp only [hlen, hopen, hmax, ne_eq, not_true_eq_false, if_false, if_true,
              Bool.true_eq_false, gt_iff_lt, and_self, stopUpload_some, Option.map_some',
              Option.some.injEq, not_false_eq_true] at hbody
            exact Or.inr (Or.inr (Or.inl ⟨hlen, st, rfl, hopen, hmax.1, hmax.2,
              by simp [← hbody, send, aborted]⟩))
          · simp only [hlen, hopen, hmax, ne_eq, not_true_eq_false, if_false,
              Bool.true_eq_false, gt_iff_lt, Option.some.injEq] at hbody
            exact Or.inr (Or.inr (Or.inr ⟨hlen, st, rfl, hopen, hmax,
              by simp [← hbody, send]⟩))
        · have hopen2 : st.open_ (readUint32 data) = false := by simpa using hopen
          simp only [hlen, hopen2, ne_eq, not_true_eq_false, if_false, if_true,
            Option.some.injEq] at hbody
          exact Or.inr (Or.inl ⟨hlen, [StorageCall.open_ (readUint32 data)], Or.inr rfl,
            by simp [← hbody, send]⟩)
    · simp only [hlen, ne_eq, not_false_eq_true, if_true, Option.some.injEq] at hbody
      exact Or.inl ⟨hlen, by simp [← hbody, send]⟩

/-- The dispatcher either hands the payload to one of the three handlers or answers
INCORRECT_FORMAT and changes nothing else. -/
theorem onWrite_cases (crc : CRC32) (storage : Option OTAStorage) (value : List Byte)
    (d d' : Device) (h : onWrite crc storage value d = some d') :
    (∃ data, value = beginFrame data ∧ handleBegin crc storage data d = some d') ∨
    (∃ data, value = packageFrame data ∧ handlePackage crc storage data d = some d') ∨
    (∃ data, value = endFrame data ∧ handleEnd crc storage data d = some d') ∨
    d' = ⟨d.ota, d.sent ++ [INCORRECT_FORMAT], d.calls⟩ := by
  cases value with
  | nil =>
    simp only [onWrite, Option.some.injEq] at h
    exact Or.inr (Or.inr (Or.inr h.symm))
  | cons op data =>
    simp only [onWrite] at h
    split_ifs at h with hb hp he
    · exact Or.inl ⟨data, by rw [show op = (0x10 : Byte) from Fin.ext hb]; rfl, h⟩
    · exact Or.inr (Or.inl ⟨data, by rw [show op = (0x11 : Byte) from Fin.ext hp]; rfl, h⟩)
    · exact Or.inr (Or.inr (Or.inl
        ⟨data, by rw [show op = (0x12 : Byte) from Fin.ext he]; rfl, h⟩))
    · exact Or.inr (Or.inr (Or.inr (Option.some.inj h).symm))

/-- One frame keeps the two counter invariants: no transfer means both counters are zero, and
during a transfer the received counter does not exceed the declared size. -/
theorem onWrite_consistent (crc : CRC32) (storage : Option OTAStorage) (value : List Byte)
    (d d' : Device) (h : onWrite crc storage value d = some d')
    (hidle : d.ota.updating = false → d.ota.firmwareLength = 0 ∧ d.ota.currentLength = 0)
    (hrecv : d.ota.updating = true → d.ota.currentLength ≤ d.ota.firmwareLength) :
    (d'.ota.updating = false → d'.ota.firmwareLength = 0 ∧ d'.ota.currentLength = 0) ∧
    (d'.ota.updating = true → d'.ota.currentLength ≤ d'.ota.firmwareLength) := by
  rcases onWrite_cases crc storage value d d' h with ⟨data, -, hb⟩ | ⟨data, -, hp⟩ |
    ⟨data, -, he⟩ | rfl
  · obtain ⟨d0, hd0, hrest⟩ := handleBegin_effect crc storage data d d' hb
    have h0 : d0.ota.updating = false ∧ d0.ota.firmwareLength = 0 ∧ d0.ota.currentLength = 0 := by
      rcases hd0 with ⟨-, rfl⟩ | ⟨hu, rfl⟩
      · exact ⟨rfl, rfl, rfl⟩
      · exact ⟨hu, hidle hu⟩
    rcases hrest with ⟨-, rfl⟩ | ⟨-, cs, -, rfl⟩ | ⟨-, st, -, -, -, -, rfl⟩ |
      ⟨-, st, -, -, -, rfl⟩
    · simp [h0]
    · simp [h0]
    · simp [aborted]
    · simp
  · rcases handlePackage_effect crc storage data d d' hp with ⟨hu, rfl⟩ | ⟨-, -, rfl⟩ |
      ⟨hu, hle, rfl⟩
    · exact ⟨hidle, hrecv⟩
    · simp [aborted]
    · simp [hu, hle]
  · rcases handleEnd_effect crc storage data d d' he with ⟨hu, rfl⟩ | ⟨-, -, rfl⟩ |
      ⟨hu, -, -, rfl⟩ | ⟨-, -, -, -, rfl⟩ | ⟨hu, heq, -, -, rfl⟩
    · exact ⟨hidle, hrecv⟩
    · simp [aborted]
    · exact ⟨hidle, hrecv⟩
    · simp [aborted]
    · simp [hu, heq]
  · exact ⟨hidle, hrecv⟩

/-- A tick leaves the fields of the object and the notifications as they are; the calls it
adds, if any, are `close` followed by `apply`, made only when `installing` is set. -/
theorem update_effect (storage : Option OTAStorage) (d d' : Device) (halted : Bool)
    (h : update storage d = some (d', halted)) :
    (d.ota.installing = false ∧ d' = d ∧ halted = false) ∨
    (d.ota.installing = true ∧ halted = true ∧
      d' = ⟨d.ota, d.sent, d.calls ++ [StorageCall.close, StorageCall.apply_]⟩) := by
  rcases Bool.eq_false_or_eq_true d.ota.installing with hi | hi
  · right
    cases storage with
    | none => simp [update, hi, handleInstall, call] at h
    | some st =>
      simp [update, hi, handleInstall, call] at h
      exact ⟨hi, h.2, h.1.symm⟩
  · left
    simp [update, hi] at h
    exact ⟨hi, h.1.symm, h.2⟩

/-- Every run of frames and ticks from the object as constructed keeps the two counter
invariants. -/
theorem runEvents_consistent (crc : CRC32) (events : List Event) (d0 d : Device)
    (halted : Bool) (h : runEvents crc events d0 = some (d, halted))
    (hidle : d0.ota.updating = false → d0.ota.firmwareLength = 0 ∧ d0.ota.currentLength = 0)
    (hrecv : d0.ota.updating = true → d0.ota.currentLength ≤ d0.ota.firmwareLength) :
    (d.ota.updating = false → d.ota.firmwareLength = 0 ∧ d.ota.currentLength = 0) ∧
    (d.ota.updating = true → d.ota.currentLength ≤ d.ota.firmwareLength) := by
  induction events generalizing d0 with
  | nil =>
    simp only [runEvents, Option.some.injEq, Prod.mk.injEq] at h
    rw [← h.1]
    exact ⟨hidle, hrecv⟩
  | cons e rest ih =>
    simp only [runEvents] at h
    cases hstep : step crc e d0 with
    | none => simp [hstep] at h
    | some r =>
      obtain ⟨d1, stop⟩ := r
      have hd1 : (d1.ota.updating = false →
            d1.ota.firmwareLength = 0 ∧ d1.ota.currentLength = 0) ∧
          (d1.ota.updating = true → d1.ota.currentLength ≤ d1.ota.firmwareLength) := by
        cases e with
        | write storage value =>
          simp only [step, Option.map_eq_some', Prod.mk.injEq] at hstep
          obtain ⟨d2, h2, rfl, -⟩ := hstep
          exact onWrite_consistent crc storage value d0 d2 h2 hidle hrecv
        | tick storage =>
          rcases update_effect storage d0 d1 stop hstep with ⟨-, rfl, -⟩ | ⟨-, -, rfl⟩
          · exact ⟨hidle, hrecv⟩
          · exact ⟨hidle, hrecv⟩
      cases stop with
      | true =>
        simp only [hstep, Option.some.injEq, Prod.mk.injEq] at h
        rw [← h.1]
        exact hd1
      | false =>
        simp only [hstep] at h
        exact ih d1 h hd1.1 hd1.2

/-- The `write` calls of a list of bytes add its length to the count of writes. -/
theorem foldl_countWrite_writes (bytes : List Byte) (n : Nat) :
    (bytes.map StorageCall.write).foldl countWrite n = n + bytes.length := by
  induction bytes generalizing n with
  | nil => rfl
  | cons b rest ih =>
    simp only [List.map_cons, List.foldl_cons, List.length_cons, countWrite]
    rw [ih]
    omega

/-- After an `open` call and the capacity queries, the count of writes is the number of bytes
written. -/
theorem writesSinceOpen_transfer (before : List StorageCall) (n : Nat) (st : OTAStorage)
    (bytes : List Byte) :
    writesSinceOpen (before ++ [StorageCall.open_ n] ++ capacityQueries st
      ++ bytes.map StorageCall.write) = bytes.length := by
  unfold writesSinceOpen capacityQueries
  split_ifs
  · simp only [List.foldl_append, List.foldl_cons, List.foldl_nil, countWrite]
    rw [foldl_countWrite_writes]
    omega
  · simp only [List.foldl_append, List.foldl_cons, List.foldl_nil, countWrite]
    rw [foldl_countWrite_writes]
    omega

/-- No frame makes the storage call `apply`. -/
theorem onWrite_no_apply (crc : CRC32) (storage : Option OTAStorage) (value : List Byte)
    (d d' : Device) (h : onWrite crc storage value d = some d')
    (happly : StorageCall.apply_ ∈ d'.calls) : StorageCall.apply_ ∈ d.calls := by
  have hcap : ∀ st : OTAStorage, StorageCall.apply_ ∉ capacityQueries st := by
    intro st
    unfold capacityQueries
    split_ifs <;> simp
  rcases onWrite_cases crc storage value d d' h with ⟨data, -, hb⟩ | ⟨data, -, hp⟩ |
    ⟨data, -, he⟩ | rfl
  · obtain ⟨d0, hd0, hrest⟩ := handleBegin_effect crc storage data d d' hb
    have h0 : StorageCall.apply_ ∈ d0.calls → StorageCall.apply_ ∈ d.calls := by
      rcases hd0 with ⟨-, rfl⟩ | ⟨-, rfl⟩
      · simp
      · exact id
    rcases hrest with ⟨-, rfl⟩ | ⟨-, cs, hcs, rfl⟩ | ⟨-, st, -, -, -, -, rfl⟩ |
      ⟨-, st, -, -, -, rfl⟩
    · exact h0 happly
    · rcases hcs with rfl | rfl
      · exact h0 (by simpa using happly)
      · exact h0 (by simpa using happly)
    · have := hcap st
      simp only [List.mem_append, List.mem_cons, List.mem_singleton, List.not_mem_nil,
        or_false, reduceCtorEq] at happly
      tauto
    · have := hcap st
      simp only [List.mem_append, List.mem_cons, List.mem_singleton, List.not_mem_nil,
        or_false, reduceCtorEq] at happly
      tauto
  · rcases handlePackage_effect crc storage data d d' hp with ⟨-, rfl⟩ | ⟨-, -, rfl⟩ |
      ⟨-, -, rfl⟩
    · exact happly
    · simpa using happly
    · simpa using happly
  · rcases handleEnd_effect crc storage data d d' he with ⟨-, rfl⟩ | ⟨-, -, rfl⟩ |
      ⟨-, -, -, rfl⟩ | ⟨-, -, -, -, rfl⟩ | ⟨-, -, -, -, rfl⟩
    · exact happly
    · simpa using happly
    · exact happly
    · simpa using happly
    · exact happly
  · exact happly

/-- A frame sets `installing` only as an END frame answered OK, on a transfer whose counters
agree and whose finalized checksum equals the payload. -/
theorem onWrite_installing (crc : CRC32) (storage : Option OTAStorage) (value : List Byte)
    (d d' : Device) (h : onWrite crc storage value d = some d')
    (hinst : d'.ota.installing = true) :
    d.ota.installing = true ∨
    ∃ data, value = endFrame data ∧ d'.sent = d.sent ++ [OK] ∧ d'.calls = d.calls ∧
      d.ota.updating = true ∧ d.ota.currentLength = d.ota.firmwareLength ∧
      crc.finalize d.ota.crc = readUint32 data := by
  rcases onWrite_cases crc storage value d d' h with ⟨data, -, hb⟩ | ⟨data, -, hp⟩ |
    ⟨data, hv, he⟩ | rfl
  · obtain ⟨d0, hd0, hrest⟩ := handleBegin_effect crc storage data d d' hb
    have h0 : d0.ota.installing = d.ota.installing := by
      rcases hd0 with ⟨-, rfl⟩ | ⟨-, rfl⟩ <;> rfl
    rcases hrest with ⟨-, rfl⟩ | ⟨-, cs, -, rfl⟩ | ⟨-, st, -, -, -, -, rfl⟩ |
      ⟨-, st, -, -, -, rfl⟩ <;> exact Or.inl (h0 ▸ hinst)
  · rcases handlePackage_effect crc storage data d d' hp with ⟨-, rfl⟩ | ⟨-, -, rfl⟩ |
      ⟨-, -, rfl⟩ <;> exact Or.inl hinst
  · rcases handleEnd_effect crc storage data d d' he with ⟨-, rfl⟩ | ⟨-, -, rfl⟩ |
      ⟨-, -, -, rfl⟩ | ⟨-, -, -, -, rfl⟩ | ⟨hu, heq, -, hcrc, rfl⟩
    · exact Or.inl hinst
    · exact Or.inl hinst
    · exact Or.inl hinst
    · exact Or.inl hinst
    · exact Or.inr ⟨data, hv, rfl, rfl, hu, heq, hcrc⟩
  · exact Or.inl hinst

/-- Events handled one after the other: a list of events followed by another, unless the
first list ended inside `handleInstall`. -/
theorem runEvents_append (crc : CRC32) (xs ys : List Event) (d : Device) :
    runEvents crc (xs ++ ys) d =
      (runEvents crc xs d).bind fun r => if r.2 = true then some r else runEvents crc ys r.1 := by
  induction xs generalizing d with
  | nil => simp [runEvents]
  | cons x rest ih =>
    simp only [List.cons_append, runEvents]
    cases hstep : step crc x d with
    | none => simp
    | some r =>
      obtain ⟨d1, stop⟩ := r
      cases stop with
      | true => simp
      | false => simp [ih]

/-- A single event run is one step. -/
theorem runEvents_singleton (crc : CRC32) (e : Event) (d : Device) :
    runEvents crc [e] d = step crc e d := by
  simp only [runEvents]
  cases hstep : step crc e d with
  | none => rfl
  | some r =>
    obtain ⟨d1, stop⟩ := r
    cases stop <;> rfl

/-- Along every run from the object as constructed: while control has not entered
`handleInstall` no `apply` call has been made, and `installing` set or an `apply` call made
goes back to an END frame of the run that was answered OK on a transfer whose counters agreed
and whose finalized checksum equalled the payload, before any `apply` call. -/
theorem runEvents_install_origin (crc : CRC32) (acc : Nat) (events : List Event) :
    ∀ (d : Device) (halted : Bool),
      runEvents crc events (Device.start (initial acc)) = some (d, halted) →
      (halted = false → StorageCall.apply_ ∉ d.calls) ∧
      (d.ota.installing = true ∨ StorageCall.apply_ ∈ d.calls →
        ∃ pre storage data post d1 d2,
          events = pre ++ Event.write storage (endFrame data) :: post ∧
          runEvents crc pre (Device.start (initial acc)) = some (d1, false) ∧
          onWrite crc storage (endFrame data) d1 = some d2 ∧
          d2.sent = d1.sent ++ [OK] ∧ StorageCall.apply_ ∉ d2.calls ∧
          d1.ota.updating = true ∧ d1.ota.currentLength = d1.ota.firmwareLength ∧
          crc.finalize d1.ota.crc = readUint32 data) := by
  induction events using List.reverseRecOn with
  | nil =>
    intro d halted h
    simp only [runEvents, Option.some.injEq, Prod.mk.injEq] at h
    obtain ⟨rfl, -⟩ := h
    simp [Device.start, initial]
  | append_singleton es e ih =>
    intro d halted h
    rw [runEvents_append, Option.bind_eq_some] at h
    obtain ⟨⟨d', stop⟩, hes, hlast⟩ := h
    obtain ⟨ih1, ih2⟩ := ih d' stop hes
    have extend : (∃ pre storage data post d1 d2,
          es = pre ++ Event.write storage (endFrame data) :: post ∧
          runEvents crc pre (Device.start (initial acc)) = some (d1, false) ∧
          onWrite crc storage (endFrame data) d1 = some d2 ∧
          d2.sent = d1.sent ++ [OK] ∧ StorageCall.apply_ ∉ d2.calls ∧
          d1.ota.updating = true ∧ d1.ota.currentLength = d1.ota.firmwareLength ∧
          crc.finalize d1.ota.crc = readUint32 data) →
        ∃ pre storage data post d1 d2,
          es ++ [e] = pre ++ Event.write storage (endFrame data) :: post ∧
          runEvents crc pre (Device.start (initial acc)) = some (d1, false) ∧
          onWrite crc storage (endFrame data) d1 = some d2 ∧
          d2.sent = d1.sent ++ [OK] ∧ StorageCall.apply_ ∉ d2.calls ∧
          d1.ota.updating = true ∧ d1.ota.currentLength = d1.ota.firmwareLength ∧
          crc.finalize d1.ota.crc = readUint32 data := by
      rintro ⟨pre, storage, data, post, d1, d2, hsplit, hrest⟩
      exact ⟨pre, storage, data, post ++ [e], d1, d2, by simp [hsplit], hrest⟩
    cases stop with
    | true =>
      simp only [if_true, Option.some.injEq, Prod.mk.injEq] at hlast
      obtain ⟨rfl, rfl⟩ := hlast
      exact ⟨fun hf => absurd hf (by simp), fun hor => extend (ih2 hor)⟩
    | false =>
      simp only [Bool.false_eq_true, if_false, runEvents_singleton] at hlast
      have hclean := ih1 rfl
      cases e with
      | write storage value =>
        simp only [step, Option.map_eq_some', Prod.mk.injEq] at hlast
        obtain ⟨d2, hw, rfl, rfl⟩ := hlast
        have hno : StorageCall.apply_ ∉ d2.calls :=
          fun happly => hclean (onWrite_no_apply crc storage value d' d2 hw happly)
        refine ⟨fun _ => hno, fun hor => ?_⟩
        rcases hor with hinst | happly
        · rcases onWrite_installing crc storage value d' d2 hw hinst with hold |
            ⟨data, rfl, hsent, -, hu, heq, hcrc⟩
          · exact extend (ih2 (Or.inl hold))
          · exact ⟨es, storage, data, [], d', d2, rfl, hes, hw, hsent, hno, hu, heq, hcrc⟩
        · exact absurd happly hno
      | tick storage =>
        rcases update_effect storage d' d halted hlast with ⟨-, rfl, rfl⟩ | ⟨hinst, rfl, rfl⟩
        · exact ⟨fun _ => hclean, fun hor => extend (ih2 hor)⟩
        · exact ⟨fun hf => absurd hf (by simp), fun _ => extend (ih2 (Or.inl hinst))⟩

/-- The shift register step is linear over xor. -/
theorem crc32Shift_xor (x y : Nat) : crc32Shift (x ^^^ y) = crc32Shift x ^^^ crc32Shift y := by
  unfold crc32Shift
  have hmod := @Nat.xor_mod_two_eq_one x y
  by_cases hx : x % 2 = 1 <;> by_cases hy : y % 2 = 1
  · have hxy : ¬ (x ^^^ y) % 2 = 1 := by rw [hmod]; simp [hx, hy]
    rw [if_neg hxy, if_pos hx, if_pos hy, Nat.xor_div_two]
    calc x / 2 ^^^ y / 2 = x / 2 ^^^ (3988292384 ^^^ (3988292384 ^^^ y / 2)) := by
          rw [Nat.xor_cancel_left]
      _ = x / 2 ^^^ 3988292384 ^^^ (y / 2 ^^^ 3988292384) := by
          rw [Nat.xor_assoc, Nat.xor_comm 3988292384 (y / 2)]
  · have hxy : (x ^^^ y) % 2 = 1 := by rw [hmod]; simp [hx, hy]
    rw [if_pos hxy, if_pos hx, if_neg hy, Nat.xor_div_two, Nat.xor_assoc, Nat.xor_assoc,
      Nat.xor_comm (y / 2)]
  · have hxy : (x ^^^ y) % 2 = 1 := by rw [hmod]; simp [hx, hy]
    rw [if_pos hxy, if_neg hx, if_pos hy, Nat.xor_div_two, Nat.xor_assoc]
  · have hxy : ¬ (x ^^^ y) % 2 = 1 := by rw [hmod]; simp [hx, hy]
    rw [if_neg hxy, if_neg hx, if_neg hy, Nat.xor_div_two]

/-- The shift register step keeps 32-bit values 32-bit. -/
theorem crc32Shift_lt (x : Nat) (hx : x < 2 ^ 32) : crc32Shift x < 2 ^ 32 := by
  unfold crc32Shift
  have hhalf : x / 2 < 2 ^ 32 := by omega
  split_ifs
  · exact Nat.xor_lt_two_pow hhalf (by norm_num)
  · exact hhalf

/-- The shift register step sends no nonzero 32-bit value to zero. -/
theorem crc32Shift_ne_zero (x : Nat) (hx : x < 2 ^ 32) (h0 : x ≠ 0) : crc32Shift x ≠ 0 := by
  unfold crc32Shift
  split_ifs with hodd
  · intro h
    rw [Nat.xor_eq_zero] at h
    omega
  · omega

/-- Any number of shift register steps is linear over xor. -/
theorem crc32Shift_iterate_xor (n : Nat) (x y : Nat) :
    crc32Shift^[n] (x ^^^ y) = crc32Shift^[n] x ^^^ crc32Shift^[n] y := by
  induction n generalizing x y with
  | zero => rfl
  | succ n ih => simp only [Function.iterate_succ, Function.comp_apply, crc32Shift_xor, ih]

/-- Any number of shift register steps keeps a nonzero 32-bit value nonzero and 32-bit. -/
theorem crc32Shift_iterate_ne_zero (n : Nat) (x : Nat) (hx : x < 2 ^ 32) (h0 : x ≠ 0) :
    crc32Shift^[n] x ≠ 0 ∧ crc32Shift^[n] x < 2 ^ 32 := by
  induction n generalizing x with
  | zero => exact ⟨h0, hx⟩
  | succ n ih =>
    simp only [Function.iterate_succ, Function.comp_apply]
    exact ih (crc32Shift x) (crc32Shift_lt x hx) (crc32Shift_ne_zero x hx h0)

/-- A difference in the accumulator passes through `update` as the shifted difference. -/
theorem standardCRC32_update_xor (state diff : Nat) (b : Byte) :
    standardCRC32.update (state ^^^ diff) b =
      standardCRC32.update state b ^^^ crc32Shift^[8] diff := by
  show crc32Shift^[8] (state ^^^ diff ^^^ b.val) =
    crc32Shift^[8] (state ^^^ b.val) ^^^ crc32Shift^[8] diff
  rw [← crc32Shift_iterate_xor, Nat.xor_assoc, Nat.xor_comm diff, ← Nat.xor_assoc]

/-- A nonzero 32-bit difference in the accumulator stays a nonzero 32-bit difference through
any further bytes. -/
theorem standardCRC32_foldl_xor (bytes : List Byte) (state diff : Nat)
    (hlt : diff < 2 ^ 32) (h0 : diff ≠ 0) :
    ∃ diff', diff' ≠ 0 ∧ diff' < 2 ^ 32 ∧
      bytes.foldl standardCRC32.update (state ^^^ diff) =
        bytes.foldl standardCRC32.update state ^^^ diff' := by
  induction bytes generalizing state diff with
  | nil => exact ⟨diff, h0, hlt, rfl⟩
  | cons b rest ih =>
    obtain ⟨hne, hlt'⟩ := crc32Shift_iterate_ne_zero 8 diff hlt h0
    simp only [List.foldl_cons, standardCRC32_update_xor]
    exact ih _ _ hlt' hne

/-- Inverting bit `k` of a byte is the xor with `2^k`. -/
theorem flipBit_val (b : Byte) (k : Fin 8) : (flipBit b k).val = b.val ^^^ 2 ^ k.val := by
  have hb : b.val < 2 ^ 8 := b.isLt
  have hk : 2 ^ k.val < 2 ^ 8 := Nat.pow_lt_pow_right (by norm_num) k.isLt
  have hlt : b.val ^^^ 2 ^ k.val < 2 ^ 8 := Nat.xor_lt_two_pow hb hk
  show (b.val ^^^ 2 ^ k.val) % 256 = b.val ^^^ 2 ^ k.val
  exact Nat.mod_eq_of_lt hlt

/-- The standard CRC-32 detects every single inverted bit: the finalized checksums of two byte
sequences that differ in one bit of one byte are different. -/
theorem standardCRC32_detects_flip (front back : List Byte) (b : Byte) (k : Fin 8) :
    standardCRC32.finalize
        ((front ++ flipBit b k :: back).foldl standardCRC32.update standardCRC32.reset) ≠
      standardCRC32.finalize
        ((front ++ b :: back).foldl standardCRC32.update standardCRC32.reset) := by
  have hk : (2 : Nat) ^ k.val < 2 ^ 32 :=
    Nat.pow_lt_pow_right (by norm_num) (lt_trans k.isLt (by norm_num))
  have hk0 : (2 : Nat) ^ k.val ≠ 0 := by positivity
  obtain ⟨hne, hlt⟩ := crc32Shift_iterate_ne_zero 8 (2 ^ k.val) hk hk0
  have hstep : ∀ state : Nat, standardCRC32.update state (flipBit b k) =
      standardCRC32.update state b ^^^ crc32Shift^[8] (2 ^ k.val) := by
    intro state
    show crc32Shift^[8] (state ^^^ (flipBit b k).val) =
      crc32Shift^[8] (state ^^^ b.val) ^^^ crc32Shift^[8] (2 ^ k.val)
    rw [flipBit_val, ← crc32Shift_iterate_xor, Nat.xor_assoc]
  obtain ⟨diff, hdiff0, -, hfold⟩ := standardCRC32_foldl_xor back
    (standardCRC32.update (front.foldl standardCRC32.update standardCRC32.reset) b)
    (crc32Shift^[8] (2 ^ k.val)) hlt hne
  simp only [List.foldl_append, List.foldl_cons, hstep, hfold]
  show _ ^^^ diff ^^^ 4294967295 ≠ _ ^^^ 4294967295
  intro h
  rw [Nat.xor_left_inj] at h
  have hzero : diff = 0 := by
    have h2 := congrArg (fun t => List.foldl standardCRC32.update
      (standardCRC32.update (List.foldl standardCRC32.update standardCRC32.reset front) b)
        back ^^^ t) h
    simpa [Nat.xor_cancel_left] using h2
  exact hdiff0 hzero

/-- A whole transfer from the object as constructed: an accepted BEGIN frame, PACKAGE frames
carrying exactly the declared number of bytes, and an END frame with a 4-byte payload. -/
theorem run_transfer (crc : CRC32) (st : OTAStorage) (acc : Nat) (size : List Byte)
    (chunks : List (List Byte)) (sum : List Byte)
    (hsize : size.length = 4) (hdecl : readUint32 size = chunks.flatten.length)
    (hopen : st.open_ chunks.flatten.length = true) (hsum : sum.length = 4) :
    run crc (some st) (beginFrame size :: (chunks.map packageFrame ++ [endFrame sum]))
        (Device.start (initial acc)) =
      some (if readUint32 sum = crc.finalize (chunks.flatten.foldl crc.update crc.reset) then
        ⟨⟨true, true, chunks.flatten.length, chunks.flatten.length,
            chunks.flatten.foldl crc.update crc.reset⟩,
          List.replicate (chunks.length + 1) OK ++ [OK],
          [StorageCall.open_ chunks.flatten.length] ++ capacityQueries st
            ++ chunks.flatten.map StorageCall.write⟩
      else
        ⟨⟨false, false, 0, 0, chunks.flatten.foldl crc.update crc.reset⟩,
          List.replicate (chunks.length + 1) OK ++ [CHECKSUM_ERROR],
          [StorageCall.open_ chunks.flatten.length] ++ capacityQueries st
            ++ chunks.flatten.map StorageCall.write
            ++ [StorageCall.clear, StorageCall.close]⟩) := by
  have hrun := run_begin_packages crc st size chunks (Device.start (initial acc)) hsize
    (by rw [hdecl]; exact hopen) (fun _ => rfl) (by omega)
  rw [← List.cons_append, run_append, hrun]
  simp only [Option.some_bind, run, onWrite_endFrame, Option.bind_some]
  by_cases hcrc : readUint32 sum = crc.finalize (chunks.flatten.foldl crc.update crc.reset)
  · simp [handleEnd, hdecl, hsum, hcrc, Device.start, initial, send]
  · have hcrc2 : ¬ crc.finalize (chunks.flatten.foldl crc.update crc.reset) = readUint32 sum :=
      fun h => hcrc h.symm
    simp [handleEnd, hdecl, hsum, hcrc, hcrc2, stopUpload_some, aborted, Device.start, initial,
      send]

/-- No frame clears `installing`: the handlers neither test nor reset the flag. -/
theorem onWrite_keeps_installing (crc : CRC32) (storage : Option OTAStorage)
    (value : List Byte) (d d' : Device) (h : onWrite crc storage value d = some d')
    (hinst : d.ota.installing = true) : d'.ota.installing = true := by
  rcases onWrite_cases crc storage value d d' h with ⟨data, -, hb⟩ | ⟨data, -, hp⟩ |
    ⟨data, -, he⟩ | rfl
  · obtain ⟨d0, hd0, hrest⟩ := handleBegin_effect crc storage data d d' hb
    have h0 : d0.ota.installing = true := by
      rcases hd0 with ⟨-, rfl⟩ | ⟨-, rfl⟩ <;> exact hinst
    rcases hrest with ⟨-, rfl⟩ | ⟨-, cs, -, rfl⟩ | ⟨-, st, -, -, -, -, rfl⟩ |
      ⟨-, st, -, -, -, rfl⟩ <;> exact h0
  · rcases handlePackage_effect crc storage data d d' hp with ⟨-, rfl⟩ | ⟨-, -, rfl⟩ |
      ⟨-, -, rfl⟩ <;> exact hinst
  · rcases handleEnd_effect crc storage data d d' he with ⟨-, rfl⟩ | ⟨-, -, rfl⟩ |
      ⟨-, -, -, rfl⟩ | ⟨-, -, -, -, rfl⟩ | ⟨-, -, -, -, rfl⟩
    · exact hinst
    · exact hinst
    · exact hinst
    · exact hinst
    · rfl
  · exact hinst

/-- With no storage attached, no frame starts a transfer. -/
theorem onWrite_detached_idle (crc : CRC32) (value : List Byte) (d d' : Device)
    (h : onWrite crc none value d = some d') (hidle : d.ota.updating = false) :
    d'.ota.updating = false := by
  rcases onWrite_cases crc none value d d' h with ⟨data, -, hb⟩ | ⟨data, -, hp⟩ |
    ⟨data, -, he⟩ | rfl
  · obtain ⟨d0, hd0, hrest⟩ := handleBegin_effect crc none data d d' hb
    have h0 : d0.ota.updating = false := by
      rcases hd0 with ⟨-, rfl⟩ | ⟨-, rfl⟩
      · rfl
      · exact hidle
    rcases hrest with ⟨-, rfl⟩ | ⟨-, cs, -, rfl⟩ | ⟨-, st, hst, -⟩ | ⟨-, st, hst, -⟩
    · exact h0
    · exact h0
    · exact absurd hst (by simp)
    · exact absurd hst (by simp)
  · rcases handlePackage_effect crc none data d d' hp with ⟨-, rfl⟩ | ⟨hu, -⟩ | ⟨hu, -⟩
    · exact hidle
    · rw [hidle] at hu
      exact absurd hu (by simp)
    · rw [hidle] at hu
      exact absurd hu (by simp)
  · rcases handleEnd_effect crc none data d d' he with ⟨-, rfl⟩ | ⟨hu, -⟩ | ⟨hu, -⟩ |
      ⟨hu, -⟩ | ⟨hu, -⟩
    · exact hidle
    all_goals
      rw [hidle] at hu
      exact absurd hu (by simp)
  · exact hidle

/-- A run in which the storage is absent at every event never starts a transfer. -/
theorem runEvents_detached_idle (crc : CRC32) (events : List Event) (d0 d : Device)
    (halted : Bool) (h : runEvents crc events d0 = some (d, halted))
    (hnull : ∀ e ∈ events, Event.storage e = none) (hidle : d0.ota.updating = false) :
    d.ota.updating = false := by
  induction events generalizing d0 with
  | nil =>
    simp only [runEvents, Option.some.injEq, Prod.mk.injEq] at h
    rw [← h.1]
    exact hidle
  | cons e rest ih =>
    simp only [runEvents] at h
    have he : Event.storage e = none := hnull e (List.mem_cons_self e rest)
    have hrest : ∀ x ∈ rest, Event.storage x = none :=
      fun x hx => hnull x (List.mem_cons_of_mem e hx)
    cases hstep : step crc e d0 with
    | none => simp [hstep] at h
    | some r =>
      obtain ⟨d1, stop⟩ := r
      have hd1 : d1.ota.updating = false := by
        cases e with
        | write storage value =>
          simp only [Event.storage] at he
          subst he
          simp only [step, Option.map_eq_some', Prod.mk.injEq] at hstep
          obtain ⟨d2, h2, rfl, -⟩ := hstep
          exact onWrite_detached_idle crc value d0 d2 h2 hidle
        | tick storage =>
          rcases update_effect storage d0 d1 stop hstep with ⟨-, rfl, -⟩ | ⟨-, -, rfl⟩
          · exact hidle
          · exact hidle
      cases stop with
      | true =>
        simp only [hstep, Option.some.injEq, Prod.mk.injEq] at h
        rw [← h.1]
        exact hd1
      | false =>
        simp only [hstep] at h
        exact ih d1 h hrest hd1

/-! ## Claims -/

/-- C1: from the object as constructed, with a storage that opens for the declared size: a
BEGIN frame declaring the length of the firmware, PACKAGE frames carrying the firmware in any
split, and an END frame with a 4-byte payload. BEGIN and every PACKAGE frame are answered OK.
If the END payload equals the finalized checksum of the firmware, END is answered OK and
`installing` is set. Otherwise END is answered CHECKSUM_ERROR, `installing` stays false and
the transfer is aborted: `updating` false, both counters zero, storage `clear` and `close`
called. -/
theorem transfer_end_checksum (crc : CRC32) (st : OTAStorage) (acc : Nat) (size : List Byte)
    (chunks : List (List Byte)) (sum : List Byte)
    (hsize : size.length = 4) (hdecl : readUint32 size = chunks.flatten.length)
    (hopen : st.open_ chunks.flatten.length = true) (hsum : sum.length = 4) :
    run crc (some st) (beginFrame size :: (chunks.map packageFrame ++ [endFrame sum]))
        (Device.start (initial acc)) =
      some (if readUint32 sum = crc.finalize (chunks.flatten.foldl crc.update crc.reset) then
        ⟨⟨true, true, chunks.flatten.length, chunks.flatten.length,
            chunks.flatten.foldl crc.update crc.reset⟩,
          List.replicate (chunks.length + 1) OK ++ [OK],
          [StorageCall.open_ chunks.flatten.length] ++ capacityQueries st
            ++ chunks.flatten.map StorageCall.write⟩
      else
        ⟨⟨false, false, 0, 0, chunks.flatten.foldl crc.update crc.reset⟩,
          List.replicate (chunks.length + 1) OK ++ [CHECKSUM_ERROR],
          [StorageCall.open_ chunks.flatten.length] ++ capacityQueries st
            ++ chunks.flatten.map StorageCall.write
            ++ [StorageCall.clear, StorageCall.close]⟩) := by
  have hrun := run_begin_packages crc st size chunks (Device.start (initial acc)) hsize
    (by rw [hdecl]; exact hopen) (fun _ => rfl) (by omega)
  rw [← List.cons_append, run_append, hrun]
  simp only [Option.some_bind, run, onWrite_endFrame, Option.bind_some]
  by_cases hcrc : readUint32 sum = crc.finalize (chunks.flatten.foldl crc.update crc.reset)
  · simp [handleEnd, hdecl, hsum, hcrc, Device.start, initial, send]
  · have hcrc2 : ¬ crc.finalize (chunks.flatten.foldl crc.update crc.reset) = readUint32 sum :=
      fun h => hcrc h.symm
    simp [handleEnd, hdecl, hsum, hcrc, hcrc2, stopUpload_some, aborted, Device.start, initial,
      send]

set_option maxRecDepth 100000 in
theorem transfer_end_checksum_witness :
    ([3, 0, 0, 0] : List Byte).length = 4 ∧
    readUint32 [3, 0, 0, 0] = ([[1, 2], [3]] : List (List Byte)).flatten.length ∧
    (⟨fun _ => true, 0⟩ : OTAStorage).open_ ([[1, 2], [3]] : List (List Byte)).flatten.length
      = true ∧
    ([29, 128, 188, 85] : List Byte).length = 4 ∧
    run standardCRC32 (some ⟨fun _ => true, 0⟩)
        (beginFrame [3, 0, 0, 0] ::
          (([[1, 2], [3]] : List (List Byte)).map packageFrame ++ [endFrame [29, 128, 188, 85]]))
        (Device.start (initial 0)) =
      some ⟨⟨true, true, 3, 3, 2856550370⟩, [OK, OK, OK, OK],
        [StorageCall.open_ 3, StorageCall.maxSize, StorageCall.write 1, StorageCall.write 2,
          StorageCall.write 3]⟩ :=
  ⟨rfl, rfl, rfl, rfl,
    (transfer_end_checksum standardCRC32 ⟨fun _ => true, 0⟩ 0 [3, 0, 0, 0] [[1, 2], [3]]
      [29, 128, 188, 85] rfl rfl rfl rfl).trans (by decide)⟩

/-- C2: after a BEGIN frame answered OK, two splits of the same bytes into PACKAGE frames,
the bytes fitting the declared size, leave the object in the same state and make the same
storage calls: one `write` per byte, in arrival order. The received counter is the number of
bytes and the accumulator is the fold of `update` over them from the reset accumulator. -/
theorem split_independent (crc : CRC32) (st : OTAStorage) (s : ArduinoBleOTAClass)
    (size : List Byte) (d0 : Device) (chunks1 chunks2 : List (List Byte))
    (hbegin : onWrite crc (some st) (beginFrame size) (Device.start s) = some d0)
    (hok : d0.sent = [OK]) (hsame : chunks1.flatten = chunks2.flatten)
    (hfit : chunks1.flatten.length ≤ readUint32 size) :
    ∃ d1 d2, run crc (some st) (chunks1.map packageFrame) d0 = some d1 ∧
      run crc (some st) (chunks2.map packageFrame) d0 = some d2 ∧
      d1.ota = d2.ota ∧ d1.calls = d2.calls ∧
      d1.calls = d0.calls ++ chunks1.flatten.map StorageCall.write ∧
      d1.ota.updating = true ∧ d1.ota.firmwareLength = readUint32 size ∧
      d1.ota.currentLength = chunks1.flatten.length ∧
      d1.ota.crc = chunks1.flatten.foldl crc.update crc.reset := by
  rw [onWrite_beginFrame] at hbegin
  obtain ⟨hu, hcur, hfw, hacc, -⟩ := handleBegin_ok crc st size _ d0 hbegin (by simpa using hok)
  have h1 := run_packages crc st chunks1 d0 hu (by omega) (by rw [hfw]; exact readUint32_lt size)
  have h2 := run_packages crc st chunks2 d0 hu (by rw [← hsame]; omega)
    (by rw [hfw]; exact readUint32_lt size)
  refine ⟨_, _, h1, h2, ?_, ?_, rfl, hu, hfw, ?_, ?_⟩
  · simp [hsame]
  · simp [hsame]
  · simp [hcur]
  · simp [hacc]

set_option maxRecDepth 100000 in
theorem split_independent_witness :
    onWrite standardCRC32 (some ⟨fun _ => true, 0⟩) (beginFrame [3, 0, 0, 0])
        (Device.start (initial 0)) =
      some ⟨⟨true, false, 3, 0, 4294967295⟩, [OK], [StorageCall.open_ 3, StorageCall.maxSize]⟩ ∧
    (⟨⟨true, false, 3, 0, 4294967295⟩, [OK], [StorageCall.open_ 3, StorageCall.maxSize]⟩ :
      Device).sent = [OK] ∧
    ([[1, 2], [3]] : List (List Byte)).flatten = ([[1], [], [2, 3]] : List (List Byte)).flatten ∧
    ([[1, 2], [3]] : List (List Byte)).flatten.length ≤ readUint32 [3, 0, 0, 0] ∧
    ∃ d1 d2,
      run standardCRC32 (some ⟨fun _ => true, 0⟩)
        (([[1, 2], [3]] : List (List Byte)).map packageFrame)
        ⟨⟨true, false, 3, 0, 4294967295⟩, [OK], [StorageCall.open_ 3, StorageCall.maxSize]⟩
        = some d1 ∧
      run standardCRC32 (some ⟨fun _ => true, 0⟩)
        (([[1], [], [2, 3]] : List (List Byte)).map packageFrame)
        ⟨⟨true, false, 3, 0, 4294967295⟩, [OK], [StorageCall.open_ 3, StorageCall.maxSize]⟩
        = some d2 ∧
      d1.ota = d2.ota ∧ d1.calls = d2.calls ∧
      d1.calls = [StorageCall.open_ 3, StorageCall.maxSize] ++
        ([[1, 2], [3]] : List (List Byte)).flatten.map StorageCall.write ∧
      d1.ota.updating = true ∧ d1.ota.firmwareLength = readUint32 [3, 0, 0, 0] ∧
      d1.ota.currentLength = ([[1, 2], [3]] : List (List Byte)).flatten.length ∧
      d1.ota.crc = ([[1, 2], [3]] : List (List Byte)).flatten.foldl standardCRC32.update
        standardCRC32.reset :=
  ⟨by decide, rfl, rfl, by decide,
    split_independent standardCRC32 ⟨fun _ => true, 0⟩ (initial 0) [3, 0, 0, 0]
      ⟨⟨true, false, 3, 0, 4294967295⟩, [OK], [StorageCall.open_ 3, StorageCall.maxSize]⟩
      [[1, 2], [3]] [[1], [], [2, 3]] (by decide) rfl rfl (by decide)⟩

/-- C3 at the failing input: a transfer that declared `2^32 - 1` bytes and has received them
all gets one more PACKAGE byte. The 32-bit counter wraps to zero, so the size check passes:
the byte is written and folded in, the answer is OK and the transfer goes on, where the frame
should have been answered INCORRECT_FIRMWARE_SIZE with nothing written. -/
theorem package_counter_wraps (crc : CRC32) (st : OTAStorage) (acc : Nat) :
    onWrite crc (some st) (packageFrame [0])
        (Device.start ⟨true, false, 4294967295, 4294967295, acc⟩) =
      some ⟨⟨true, false, 4294967295, 0, crc.update acc 0⟩, [OK], [StorageCall.write 0]⟩ := by
  have hwrap : (4294967295 + 1) % UINT32_MOD = 0 := by norm_num [UINT32_MOD]
  rw [onWrite_packageFrame]
  unfold handlePackage
  simp only [Device.start, List.length_singleton, hwrap]
  simp only [Bool.true_eq_false, if_false, gt_iff_lt, Nat.not_lt_zero, writeLoop_some]
  rfl

/-- C4, as stated, fails: a BEGIN frame with a 2-byte payload received during a transfer is
answered INCORRECT_FORMAT, yet the transfer has been aborted and the storage cleared and
closed. -/
theorem malformed_begin_aborts_transfer :
    onWrite standardCRC32 (some ⟨fun _ => true, 0⟩) (beginFrame [1, 2])
        (Device.start ⟨true, false, 10, 5, 99⟩) =
      some ⟨⟨false, false, 0, 0, 99⟩, [INCORRECT_FORMAT],
        [StorageCall.clear, StorageCall.close]⟩ := by
  decide

/-- What a frame answered INCORRECT_FORMAT has done: nothing, unless it is a BEGIN frame
received during a transfer, which has aborted the transfer and done nothing else. -/
theorem incorrect_format_cases (crc : CRC32) (storage : Option OTAStorage)
    (s : ArduinoBleOTAClass) (value : List Byte) (d : Device)
    (hrun : onWrite crc storage value (Device.start s) = some d)
    (hfmt : d.sent = [INCORRECT_FORMAT]) :
    (¬ (s.updating = true ∧ value.head? = some 0x10) → d.ota = s ∧ d.calls = []) ∧
    (s.updating = true ∧ value.head? = some 0x10 →
      d.ota = aborted s ∧ d.calls = [StorageCall.clear, StorageCall.close]) := by
  cases value with
  | nil =>
    simp only [onWrite, Device.start, send, Option.some.injEq] at hrun
    subst hrun
    simp
  | cons op data =>
    by_cases hb : op.val = BEGIN
    · have hop : op = 0x10 := Fin.ext hb
      subst hop
      change handleBegin crc storage data (Device.start s) = some d at hrun
      cases storage with
      | none =>
        cases hu : s.updating
        · by_cases hlen : data.length = 4
          · simp [handleBegin, hu, hlen, Device.start, send] at hrun
            subst hrun
            simp [INCORRECT_FORMAT, INTERNAL_STORAGE_ERROR] at hfmt
          · simp [handleBegin, hu, hlen, Device.start, send] at hrun
            subst hrun
            simp
        · simp [handleBegin, hu, stopUpload, call, Device.start] at hrun
      | some st =>
        cases hu : s.updating
        · by_cases hlen : data.length = 4
          · simp only [handleBegin, hu, hlen, stopUpload_some, Device.start] at hrun
            simp at hrun
            split_ifs at hrun <;> simp [send] at hrun <;> subst hrun <;>
              simp [INCORRECT_FORMAT, INTERNAL_STORAGE_ERROR, INCORRECT_FIRMWARE_SIZE, OK] at hfmt
          · simp [handleBegin, hu, hlen, Device.start, send] at hrun
            subst hrun
            simp
        · by_cases hlen : data.length = 4
          · simp only [handleBegin, hu, hlen, stopUpload_some, Device.start] at hrun
            simp at hrun
            split_ifs at hrun <;> simp [send] at hrun <;> subst hrun <;>
              simp [INCORRECT_FORMAT, INTERNAL_STORAGE_ERROR, INCORRECT_FIRMWARE_SIZE, OK] at hfmt
          · simp [handleBegin, hu, hlen, stopUpload_some, Device.start, send] at hrun
            subst hrun
            simp
    · have hop : op ≠ 0x10 := fun h => hb (by rw [h]; rfl)
      have hhead : ¬ (s.updating = true ∧ (op :: data).head? = some 0x10) := by simp [hop]
      refine ⟨fun _ => ?_, fun h => absurd h hhead⟩
      simp only [onWrite, hb, if_false] at hrun
      split_ifs at hrun with hp he
      · obtain ⟨status, hs1, hs2⟩ := handlePackage_sent crc storage data _ d hrun
        rw [hfmt] at hs1
        simp [Device.start] at hs1
        subst hs1
        simp [INCORRECT_FORMAT, NOK, INCORRECT_FIRMWARE_SIZE, OK] at hs2
      · obtain ⟨status, hs1, hs2⟩ := handleEnd_sent crc storage data _ d hrun
        rw [hfmt] at hs1
        simp only [Device.start, List.nil_append, List.cons.injEq, and_true] at hs1
        subst hs1
        rcases hs2 with h | h | h | h | h
        · simp [INCORRECT_FORMAT, NOK] at h
        · simp [INCORRECT_FORMAT, INCORRECT_FIRMWARE_SIZE] at h
        · simp [INCORRECT_FORMAT, CHECKSUM_ERROR] at h
        · simp [INCORRECT_FORMAT, OK] at h
        · exact h.2
      · simp [Device.start, send] at hrun
        subst hrun
        simp

/-- C4 (amended): when a frame is answered INCORRECT_FORMAT the object is unchanged and no
storage call was made, unless the frame is a BEGIN frame received during a transfer; that
frame has aborted the transfer first (storage `clear` and `close`, `updating` false, both
counters zero) and changed nothing else. And a BEGIN frame whose payload is not exactly 4
bytes, received during a transfer, is answered INCORRECT_FORMAT after that abort. -/
theorem incorrect_format_effect (crc : CRC32) (s : ArduinoBleOTAClass) :
    (∀ (storage : Option OTAStorage) (value : List Byte) (d : Device),
      onWrite crc storage value (Device.start s) = some d → d.sent = [INCORRECT_FORMAT] →
      (¬ (s.updating = true ∧ value.head? = some 0x10) → d.ota = s ∧ d.calls = []) ∧
      (s.updating = true ∧ value.head? = some 0x10 →
        d.ota = aborted s ∧ d.calls = [StorageCall.clear, StorageCall.close])) ∧
    (∀ (st : OTAStorage) (data : List Byte), s.updating = true → data.length ≠ 4 →
      onWrite crc (some st) (beginFrame data) (Device.start s) =
        some ⟨aborted s, [INCORRECT_FORMAT], [StorageCall.clear, StorageCall.close]⟩) := by
  refine ⟨fun storage value d hrun hfmt =>
    incorrect_format_cases crc storage s value d hrun hfmt, fun st data hrecv hlen => ?_⟩
  simp [onWrite_beginFrame, handleBegin, hrecv, hlen, stopUpload_some, Device.start, send,
    aborted]

theorem incorrect_format_effect_witness :
    (onWrite standardCRC32 (some ⟨fun _ => true, 0⟩) (endFrame [1, 2])
        (Device.start ⟨true, false, 4, 4, 9⟩) =
      some ⟨⟨true, false, 4, 4, 9⟩, [INCORRECT_FORMAT], []⟩ ∧
    (⟨⟨true, false, 4, 4, 9⟩, [INCORRECT_FORMAT], []⟩ : Device).sent = [INCORRECT_FORMAT] ∧
    ¬ ((⟨true, false, 4, 4, 9⟩ : ArduinoBleOTAClass).updating = true ∧
        (endFrame [1, 2]).head? = some 0x10) ∧
    (⟨⟨true, false, 4, 4, 9⟩, [INCORRECT_FORMAT], []⟩ : Device).ota = ⟨true, false, 4, 4, 9⟩ ∧
    (⟨⟨true, false, 4, 4, 9⟩, [INCORRECT_FORMAT], []⟩ : Device).calls = []) ∧
    ((⟨true, false, 4, 4, 9⟩ : ArduinoBleOTAClass).updating = true ∧
    ([1, 2] : List Byte).length ≠ 4 ∧
    onWrite standardCRC32 (some ⟨fun _ => true, 0⟩) (beginFrame [1, 2])
        (Device.start ⟨true, false, 4, 4, 9⟩) =
      some ⟨aborted ⟨true, false, 4, 4, 9⟩, [INCORRECT_FORMAT],
        [StorageCall.clear, StorageCall.close]⟩) :=
  ⟨⟨by decide, rfl, by decide,
      ((incorrect_format_effect standardCRC32 ⟨true, false, 4, 4, 9⟩).1
        (some ⟨fun _ => true, 0⟩) (endFrame [1, 2])
        ⟨⟨true, false, 4, 4, 9⟩, [INCORRECT_FORMAT], []⟩ (by decide) rfl).1 (by decide)⟩,
    ⟨rfl, by decide,
      (incorrect_format_effect standardCRC32 ⟨true, false, 4, 4, 9⟩).2
        ⟨fun _ => true, 0⟩ [1, 2] rfl (by decide)⟩⟩

set_option maxRecDepth 100000 in
/-- C5, as stated, fails on the checksum accumulator when `open` refuses: the frame resets
nothing. A transfer that has received the bytes 1, 2, 3 and the object as constructed both
answer INTERNAL_STORAGE_ERROR, and each keeps its own accumulator: the one holding the three
bytes in the first run, the freshly reset one in the second. -/
theorem begin_restart_accumulators_differ :
    runEvents standardCRC32
        [Event.write (some ⟨fun _ => true, 0⟩) (beginFrame [8, 0, 0, 0]),
          Event.write (some ⟨fun _ => true, 0⟩) (packageFrame [1, 2, 3])]
        (Device.start (initial 4294967295)) =
      some (⟨⟨true, false, 8, 3, 2856550370⟩, [OK, OK],
        [StorageCall.open_ 8, StorageCall.maxSize, StorageCall.write 1, StorageCall.write 2,
          StorageCall.write 3]⟩, false) ∧
    onWrite standardCRC32 (some ⟨fun _ => false, 0⟩) (beginFrame [5, 0, 0, 0])
        (Device.start ⟨true, false, 8, 3, 2856550370⟩) =
      some ⟨⟨false, false, 0, 0, 2856550370⟩, [INTERNAL_STORAGE_ERROR],
        [StorageCall.clear, StorageCall.close, StorageCall.open_ 5]⟩ ∧
    onWrite standardCRC32 (some ⟨fun _ => false, 0⟩) (beginFrame [5, 0, 0, 0])
        (Device.start (initial 4294967295)) =
      some ⟨⟨false, false, 0, 0, 4294967295⟩, [INTERNAL_STORAGE_ERROR],
        [StorageCall.open_ 5]⟩ ∧
    (⟨false, false, 0, 0, 2856550370⟩ : ArduinoBleOTAClass).crc ≠
      (⟨false, false, 0, 0, 4294967295⟩ : ArduinoBleOTAClass).crc := by
  decide

/-- C5 (amended restart law): a BEGIN frame with a 4-byte payload handled during a transfer
gives the same status byte and the same `updating`, `firmwareLength` and `currentLength` as
the same frame handled by an idle object (no transfer, received counter zero) with the same
storage answers, and its storage calls are `clear` and `close` followed by those of the idle
run. When `open` succeeds the frame is answered OK and the checksum accumulator is the reset
one in both runs; when `open` fails the frame is answered INTERNAL_STORAGE_ERROR and each run
keeps the accumulator it had. -/
theorem begin_restart (crc : CRC32) (st : OTAStorage) (s idle : ArduinoBleOTAClass)
    (data : List Byte) (hrecv : s.updating = true) (hlen : data.length = 4)
    (hidle : idle.updating = false) (hzero : idle.currentLength = 0) :
    ∃ d1 d2 status,
      onWrite crc (some st) (beginFrame data) (Device.start s) = some d1 ∧
      onWrite crc (some st) (beginFrame data) (Device.start idle) = some d2 ∧
      d1.sent = [status] ∧ d2.sent = [status] ∧
      d1.ota.updating = d2.ota.updating ∧
      d1.ota.firmwareLength = d2.ota.firmwareLength ∧
      d1.ota.currentLength = d2.ota.currentLength ∧
      (st.open_ (readUint32 data) = true →
        status = OK ∧ d1.ota.crc = crc.reset ∧ d2.ota.crc = crc.reset) ∧
      (st.open_ (readUint32 data) = false →
        status = INTERNAL_STORAGE_ERROR ∧ d1.ota.crc = s.crc ∧ d2.ota.crc = idle.crc) ∧
      d1.calls = [StorageCall.clear, StorageCall.close] ++ d2.calls := by
  simp only [onWrite_beginFrame, handleBegin, hrecv, hidle, stopUpload_some, Device.start,
    Option.some_bind, if_true, if_false, Bool.false_eq_true]
  by_cases hopen : st.open_ (readUint32 data) = false
  · simp [hlen, hopen, hzero, send, aborted]
  · by_cases hmax : st.maxSize = 0 <;> simp [hlen, hopen, hmax, hzero, send, aborted]

theorem begin_restart_witness :
    (⟨true, false, 8, 3, 77⟩ : ArduinoBleOTAClass).updating = true ∧
    ([5, 0, 0, 0] : List Byte).length = 4 ∧
    (initial 0).updating = false ∧ (initial 0).currentLength = 0 ∧
    ∃ d1 d2 status,
      onWrite standardCRC32 (some ⟨fun _ => true, 4⟩) (beginFrame [5, 0, 0, 0])
        (Device.start ⟨true, false, 8, 3, 77⟩) = some d1 ∧
      onWrite standardCRC32 (some ⟨fun _ => true, 4⟩) (beginFrame [5, 0, 0, 0])
        (Device.start (initial 0)) = some d2 ∧
      d1.sent = [status] ∧ d2.sent = [status] ∧
      d1.ota.updating = d2.ota.updating ∧
      d1.ota.firmwareLength = d2.ota.firmwareLength ∧
      d1.ota.currentLength = d2.ota.currentLength ∧
      ((⟨fun _ => true, 4⟩ : OTAStorage).open_ (readUint32 [5, 0, 0, 0]) = true →
        status = OK ∧ d1.ota.crc = standardCRC32.reset ∧ d2.ota.crc = standardCRC32.reset) ∧
      ((⟨fun _ => true, 4⟩ : OTAStorage).open_ (readUint32 [5, 0, 0, 0]) = false →
        status = INTERNAL_STORAGE_ERROR ∧
        d1.ota.crc = (⟨true, false, 8, 3, 77⟩ : ArduinoBleOTAClass).crc ∧
        d2.ota.crc = (initial 0).crc) ∧
      d1.calls = [StorageCall.clear, StorageCall.close] ++ d2.calls :=
  ⟨rfl, rfl, rfl, rfl, begin_restart standardCRC32 ⟨fun _ => true, 4⟩ ⟨true, false, 8, 3, 77⟩
    (initial 0) [5, 0, 0, 0] rfl rfl rfl rfl⟩

/-- C6: an END frame received during a transfer. If the two counters differ, the answer is
INCORRECT_FIRMWARE_SIZE and the transfer is aborted, whatever the payload length. If they
agree and the payload is not exactly 4 bytes, the answer is INCORRECT_FORMAT, the object is
unchanged and no storage call is made, so a following END frame carrying the finalized
checksum is answered OK and sets `installing`. -/
theorem end_size_before_format (crc : CRC32) (st : OTAStorage) (s : ArduinoBleOTAClass)
    (data : List Byte) (hrecv : s.updating = true) :
    (s.currentLength ≠ s.firmwareLength →
      onWrite crc (some st) (endFrame data) (Device.start s) =
        some ⟨aborted s, [INCORRECT_FIRMWARE_SIZE], [StorageCall.clear, StorageCall.close]⟩) ∧
    (s.currentLength = s.firmwareLength → data.length ≠ 4 →
      onWrite crc (some st) (endFrame data) (Device.start s) =
        some ⟨s, [INCORRECT_FORMAT], []⟩ ∧
      ∀ good : List Byte, good.length = 4 → readUint32 good = crc.finalize s.crc →
        run crc (some st) [endFrame data, endFrame good] (Device.start s) =
          some ⟨{ s with installing := true }, [INCORRECT_FORMAT, OK], []⟩) := by
  refine ⟨fun hne => ?_, fun heq hlen => ⟨?_, fun good hgood hcrc => ?_⟩⟩
  · simp [onWrite_endFrame, handleEnd, hrecv, hne, stopUpload_some, Device.start, send]
  · simp [onWrite_endFrame, handleEnd, hrecv, heq, hlen, Device.start, send]
  · simp [run, onWrite_endFrame, handleEnd, hrecv, heq, hlen, hgood, hcrc, Device.start, send]

theorem end_size_before_format_witness :
    (⟨true, false, 4, 4, 9⟩ : ArduinoBleOTAClass).updating = true ∧
    (onWrite standardCRC32 (some ⟨fun _ => true, 0⟩) (endFrame [1, 2])
        (Device.start ⟨true, false, 4, 4, 9⟩) =
        some ⟨⟨true, false, 4, 4, 9⟩, [INCORRECT_FORMAT], []⟩ ∧
      ∀ good : List Byte, good.length = 4 →
        readUint32 good = standardCRC32.finalize 9 →
        run standardCRC32 (some ⟨fun _ => true, 0⟩) [endFrame [1, 2], endFrame good]
            (Device.start ⟨true, false, 4, 4, 9⟩) =
          some ⟨⟨true, true, 4, 4, 9⟩, [INCORRECT_FORMAT, OK], []⟩) :=
  ⟨rfl, (end_size_before_format standardCRC32 ⟨fun _ => true, 0⟩ ⟨true, false, 4, 4, 9⟩ [1, 2]
    rfl).2 rfl (by decide)⟩

/-- C7: while no transfer is in progress (`updating` false), a PACKAGE frame and an END frame
with any payload are each answered NOK, leave the object as it was and make no storage call,
whatever the storage. -/
theorem idle_package_end_nok (crc : CRC32) (storage : Option OTAStorage)
    (s : ArduinoBleOTAClass) (payload : List Byte) (hidle : s.updating = false) :
    onWrite crc storage (packageFrame payload) (Device.start s) = some ⟨s, [NOK], []⟩ ∧
    onWrite crc storage (endFrame payload) (Device.start s) = some ⟨s, [NOK], []⟩ := by
  simp [onWrite_packageFrame, onWrite_endFrame, handlePackage, handleEnd, Device.start, send,
    hidle]

theorem idle_package_end_nok_witness :
    (initial 0).updating = false ∧
    onWrite standardCRC32 none (packageFrame [1, 2, 3]) (Device.start (initial 0))
      = some ⟨initial 0, [NOK], []⟩ ∧
    onWrite standardCRC32 none (endFrame [1, 2, 3]) (Device.start (initial 0))
      = some ⟨initial 0, [NOK], []⟩ :=
  ⟨rfl, idle_package_end_nok standardCRC32 none (initial 0) [1, 2, 3] rfl⟩

/-- C8: an empty inbound buffer, or one whose first byte is none of 0x10, 0x11, 0x12, is
answered INCORRECT_FORMAT from every state of the object; the object is unchanged and no
storage call is made. -/
theorem unrecognized_incorrect_format (crc : CRC32) (storage : Option OTAStorage)
    (s : ArduinoBleOTAClass) (value : List Byte)
    (hop : ∀ op ∈ value.head?, op ≠ 0x10 ∧ op ≠ 0x11 ∧ op ≠ 0x12) :
    onWrite crc storage value (Device.start s) = some ⟨s, [INCORRECT_FORMAT], []⟩ := by
  cases value with
  | nil => simp [onWrite, Device.start, send]
  | cons op data =>
    obtain ⟨h0, h1, h2⟩ := hop op (by simp)
    have e0 : op.val ≠ BEGIN := fun h => h0 (Fin.ext h)
    have e1 : op.val ≠ PACKAGE := fun h => h1 (Fin.ext h)
    have e2 : op.val ≠ END := fun h => h2 (Fin.ext h)
    simp [onWrite, e0, e1, e2, Device.start, send]

theorem unrecognized_incorrect_format_witness :
    (∀ op ∈ ([0x13, 0x10] : List Byte).head?, op ≠ 0x10 ∧ op ≠ 0x11 ∧ op ≠ 0x12) ∧
    onWrite standardCRC32 none [0x13, 0x10] (Device.start ⟨true, false, 8, 3, 77⟩)
      = some ⟨⟨true, false, 8, 3, 77⟩, [INCORRECT_FORMAT], []⟩ :=
  ⟨by simp, unrecognized_incorrect_format standardCRC32 none ⟨true, false, 8, 3, 77⟩
    [0x13, 0x10] (by simp)⟩

/-- C9: in every state reached from the object as constructed by any sequence of inbound
frames and ticks, a BEGIN frame with a 4-byte payload is answered INTERNAL_STORAGE_ERROR when
the storage is absent or `open` returns false, and afterwards `updating` is false and both
counters are zero. The storage pointer is set once and never cleared, so when it is absent at
this frame it was absent at every earlier event. -/
theorem begin_storage_error (crc : CRC32) (acc : Nat) (events : List Event) (d0 : Device)
    (halted : Bool) (storage : Option OTAStorage) (data : List Byte)
    (hrun : runEvents crc events (Device.start (initial acc)) = some (d0, halted))
    (hnull : storage = none → ∀ e ∈ events, Event.storage e = none)
    (hlen : data.length = 4)
    (hfail : ∀ st ∈ storage, st.open_ (readUint32 data) = false) :
    ∃ d, onWrite crc storage (beginFrame data) d0 = some d ∧
      d.sent = d0.sent ++ [INTERNAL_STORAGE_ERROR] ∧ d.ota.updating = false ∧
      d.ota.firmwareLength = 0 ∧ d.ota.currentLength = 0 := by
  have hinv := runEvents_consistent crc events (Device.start (initial acc)) d0 halted hrun
    (fun _ => ⟨rfl, rfl⟩) (fun _ => Nat.le_refl 0)
  rw [onWrite_beginFrame]
  cases storage with
  | none =>
    have hu : d0.ota.updating = false :=
      runEvents_detached_idle crc events (Device.start (initial acc)) d0 halted hrun
        (hnull rfl) rfl
    simp [handleBegin, hu, hlen, (hinv.1 hu).2, send]
  | some st =>
    have hopen := hfail st rfl
    rcases Bool.eq_false_or_eq_true d0.ota.updating with hu | hu
    · simp [handleBegin, hu, hlen, hopen, stopUpload_some, aborted, send]
    · simp [handleBegin, hu, hlen, hopen, (hinv.1 hu).2, send]

set_option maxRecDepth 100000 in
theorem begin_storage_error_witness :
    (runEvents standardCRC32
        [Event.write (some ⟨fun _ => true, 0⟩) (beginFrame [8, 0, 0, 0]),
          Event.write (some ⟨fun _ => true, 0⟩) (packageFrame [1, 2, 3])]
        (Device.start (initial 0)) =
      some (⟨⟨true, false, 8, 3, 2856550370⟩, [OK, OK],
        [StorageCall.open_ 8, StorageCall.maxSize, StorageCall.write 1, StorageCall.write 2,
          StorageCall.write 3]⟩, false) ∧
    ((some ⟨fun _ => false, 0⟩ : Option OTAStorage) = none →
      ∀ e ∈ [Event.write (some ⟨fun _ => true, 0⟩) (beginFrame [8, 0, 0, 0]),
          Event.write (some ⟨fun _ => true, 0⟩) (packageFrame [1, 2, 3])],
        Event.storage e = none) ∧
    ([4, 0, 0, 0] : List Byte).length = 4 ∧
    (∀ st ∈ some (⟨fun _ => false, 0⟩ : OTAStorage),
      st.open_ (readUint32 [4, 0, 0, 0]) = false) ∧
    ∃ d, onWrite standardCRC32 (some ⟨fun _ => false, 0⟩) (beginFrame [4, 0, 0, 0])
        ⟨⟨true, false, 8, 3, 2856550370⟩, [OK, OK],
          [StorageCall.open_ 8, StorageCall.maxSize, StorageCall.write 1,
            StorageCall.write 2, StorageCall.write 3]⟩ = some d ∧
      d.sent = [OK, OK] ++ [INTERNAL_STORAGE_ERROR] ∧ d.ota.updating = false ∧
      d.ota.firmwareLength = 0 ∧ d.ota.currentLength = 0) ∧
    (runEvents standardCRC32 [Event.write none (packageFrame [1])]
        (Device.start (initial 0)) = some (⟨initial 0, [NOK], []⟩, false) ∧
    ((none : Option OTAStorage) = none →
      ∀ e ∈ [Event.write none (packageFrame [1])], Event.storage e = none) ∧
    (∀ st ∈ (none : Option OTAStorage), st.open_ (readUint32 [4, 0, 0, 0]) = false) ∧
    ∃ d, onWrite standardCRC32 none (beginFrame [4, 0, 0, 0]) ⟨initial 0, [NOK], []⟩
        = some d ∧
      d.sent = [NOK] ++ [INTERNAL_STORAGE_ERROR] ∧ d.ota.updating = false ∧
      d.ota.firmwareLength = 0 ∧ d.ota.currentLength = 0) :=
  ⟨⟨by decide, by simp, rfl, by simp,
    begin_storage_error standardCRC32 0
      [Event.write (some ⟨fun _ => true, 0⟩) (beginFrame [8, 0, 0, 0]),
        Event.write (some ⟨fun _ => true, 0⟩) (packageFrame [1, 2, 3])]
      ⟨⟨true, false, 8, 3, 2856550370⟩, [OK, OK],
        [StorageCall.open_ 8, StorageCall.maxSize, StorageCall.write 1, StorageCall.write 2,
          StorageCall.write 3]⟩
      false (some ⟨fun _ => false, 0⟩) [4, 0, 0, 0] (by decide) (by simp) rfl (by simp)⟩,
    ⟨by decide, by simp [Event.storage], by simp,
      begin_storage_error standardCRC32 0 [Event.write none (packageFrame [1])]
        ⟨initial 0, [NOK], []⟩ false none [4, 0, 0, 0] (by decide)
        (by simp [Event.storage]) rfl (by simp)⟩⟩

/-- C10: with a storage attached, `onWrite` returns from every state of the object and every
inbound buffer having sent exactly one status byte, and that byte is one of the six codes
OK, NOK, INCORRECT_FORMAT, INCORRECT_FIRMWARE_SIZE, CHECKSUM_ERROR, INTERNAL_STORAGE_ERROR. -/
theorem onWrite_one_status (crc : CRC32) (st : OTAStorage) (s : ArduinoBleOTAClass)
    (value : List Byte) :
    ∃ d status, onWrite crc (some st) value (Device.start s) = some d ∧
      d.sent = [status] ∧ status ∈ statusCodes := by
  unfold onWrite
  split
  · exact ⟨_, INCORRECT_FORMAT, rfl, rfl, by simp [statusCodes]⟩
  · split_ifs
    · exact handleBegin_one_status crc st _ (Device.start s)
    · exact handlePackage_one_status crc st _ (Device.start s)
    · exact handleEnd_one_status crc st _ (Device.start s)
    · exact ⟨_, INCORRECT_FORMAT, rfl, rfl, by simp [statusCodes]⟩

/-- C11: in every state reached from the object as constructed by any sequence of inbound
frames and ticks, whatever the storage does each time, `updating` false implies that the
declared size and the received counter are both zero. -/
theorem idle_counters_zero (crc : CRC32) (acc : Nat) (events : List Event) (d : Device)
    (halted : Bool)
    (hrun : runEvents crc events (Device.start (initial acc)) = some (d, halted))
    (hidle : d.ota.updating = false) :
    d.ota.firmwareLength = 0 ∧ d.ota.currentLength = 0 :=
  (runEvents_consistent crc events (Device.start (initial acc)) d halted hrun
    (fun _ => ⟨rfl, rfl⟩) (fun _ => Nat.le_refl 0)).1 hidle

theorem idle_counters_zero_witness :
    runEvents standardCRC32
        [Event.write (some ⟨fun _ => true, 0⟩) (beginFrame [4, 0, 0, 0]),
          Event.write (some ⟨fun _ => true, 0⟩) (packageFrame [1, 2, 3, 4, 5, 6])]
        (Device.start (initial 0)) =
      some (⟨⟨false, false, 0, 0, 4294967295⟩, [OK, INCORRECT_FIRMWARE_SIZE],
        [StorageCall.open_ 4, StorageCall.maxSize, StorageCall.clear, StorageCall.close]⟩,
        false) ∧
    (⟨false, false, 0, 0, 4294967295⟩ : ArduinoBleOTAClass).updating = false ∧
    (⟨false, false, 0, 0, 4294967295⟩ : ArduinoBleOTAClass).firmwareLength = 0 ∧
    (⟨false, false, 0, 0, 4294967295⟩ : ArduinoBleOTAClass).currentLength = 0 :=
  ⟨by decide, rfl,
    idle_counters_zero standardCRC32 0
      [Event.write (some ⟨fun _ => true, 0⟩) (beginFrame [4, 0, 0, 0]),
        Event.write (some ⟨fun _ => true, 0⟩) (packageFrame [1, 2, 3, 4, 5, 6])]
      ⟨⟨false, false, 0, 0, 4294967295⟩, [OK, INCORRECT_FIRMWARE_SIZE],
        [StorageCall.open_ 4, StorageCall.maxSize, StorageCall.clear, StorageCall.close]⟩
      false (by decide) rfl⟩

/-- C12: in every state reached from the object as constructed by any sequence of inbound
frames and ticks, whatever the storage does each time, `updating` true implies that the
received counter does not exceed the declared size. -/
theorem received_le_declared (crc : CRC32) (acc : Nat) (events : List Event) (d : Device)
    (halted : Bool)
    (hrun : runEvents crc events (Device.start (initial acc)) = some (d, halted))
    (hrecv : d.ota.updating = true) :
    d.ota.currentLength ≤ d.ota.firmwareLength :=
  (runEvents_consistent crc events (Device.start (initial acc)) d halted hrun
    (fun _ => ⟨rfl, rfl⟩) (fun _ => Nat.le_refl 0)).2 hrecv

set_option maxRecDepth 100000 in
theorem received_le_declared_witness :
    runEvents standardCRC32
        [Event.write (some ⟨fun _ => true, 0⟩) (beginFrame [4, 0, 0, 0]),
          Event.write (some ⟨fun _ => true, 0⟩) (packageFrame [1, 2, 3])]
        (Device.start (initial 0)) =
      some (⟨⟨true, false, 4, 3, 2856550370⟩, [OK, OK],
        [StorageCall.open_ 4, StorageCall.maxSize, StorageCall.write 1, StorageCall.write 2,
          StorageCall.write 3]⟩, false) ∧
    (⟨true, false, 4, 3, 2856550370⟩ : ArduinoBleOTAClass).updating = true ∧
    (⟨true, false, 4, 3, 2856550370⟩ : ArduinoBleOTAClass).currentLength ≤
      (⟨true, false, 4, 3, 2856550370⟩ : ArduinoBleOTAClass).firmwareLength :=
  ⟨by decide, rfl,
    received_le_declared standardCRC32 0
      [Event.write (some ⟨fun _ => true, 0⟩) (beginFrame [4, 0, 0, 0]),
        Event.write (some ⟨fun _ => true, 0⟩) (packageFrame [1, 2, 3])]
      ⟨⟨true, false, 4, 3, 2856550370⟩, [OK, OK],
        [StorageCall.open_ 4, StorageCall.maxSize, StorageCall.write 1, StorageCall.write 2,
          StorageCall.write 3]⟩
      false (by decide) rfl⟩

set_option maxRecDepth 100000 in
/-- C13 at the failing inputs: a transfer of one byte is completed and its END frame answered
OK, so `installing` is set. A further BEGIN frame is then handled as a restart: `clear` and
`close` are called, the storage is opened again and the counters start over; a further
PACKAGE byte instead overflows the declared size and aborts to `updating` false with both
counters zero. In both runs the next tick calls `close` and `apply` on the storage that has
just been cleared. -/
theorem frames_after_end_abort_install :
    runEvents standardCRC32
        [Event.write (some ⟨fun _ => true, 0⟩) (beginFrame [1, 0, 0, 0]),
          Event.write (some ⟨fun _ => true, 0⟩) (packageFrame [7]),
          Event.write (some ⟨fun _ => true, 0⟩) (endFrame [46, 122, 102, 76]),
          Event.write (some ⟨fun _ => true, 0⟩) (beginFrame [1, 0, 0, 0]),
          Event.tick (some ⟨fun _ => true, 0⟩)]
        (Device.start (initial 0)) =
      some (⟨⟨true, true, 1, 0, 4294967295⟩, [OK, OK, OK, OK],
        [StorageCall.open_ 1, StorageCall.maxSize, StorageCall.write 7,
          StorageCall.clear, StorageCall.close, StorageCall.open_ 1, StorageCall.maxSize,
          StorageCall.close, StorageCall.apply_]⟩, true) ∧
    runEvents standardCRC32
        [Event.write (some ⟨fun _ => true, 0⟩) (beginFrame [1, 0, 0, 0]),
          Event.write (some ⟨fun _ => true, 0⟩) (packageFrame [7]),
          Event.write (some ⟨fun _ => true, 0⟩) (endFrame [46, 122, 102, 76]),
          Event.write (some ⟨fun _ => true, 0⟩) (packageFrame [0]),
          Event.tick (some ⟨fun _ => true, 0⟩)]
        (Device.start (initial 0)) =
      some (⟨⟨false, true, 0, 0, 3013182929⟩, [OK, OK, OK, INCORRECT_FIRMWARE_SIZE],
        [StorageCall.open_ 1, StorageCall.maxSize, StorageCall.write 7,
          StorageCall.clear, StorageCall.close,
          StorageCall.close, StorageCall.apply_]⟩, true) := by
  decide

/-- C14: along every sequence of inbound frames and ticks from the object as constructed, an
`apply` call has been made only if an END frame of the sequence was answered OK before it, on
a transfer whose counters agreed and whose finalized checksum equalled the payload. A tick
with `installing` false returns without any storage call; a tick with `installing` set calls
`close` and then `apply`, and control stays in `handleInstall`. -/
theorem apply_only_after_end_ok (crc : CRC32) (acc : Nat) (events : List Event) (d : Device)
    (halted : Bool)
    (hrun : runEvents crc events (Device.start (initial acc)) = some (d, halted)) :
    (StorageCall.apply_ ∈ d.calls →
      ∃ pre storage data post d1 d2,
        events = pre ++ Event.write storage (endFrame data) :: post ∧
        runEvents crc pre (Device.start (initial acc)) = some (d1, false) ∧
        onWrite crc storage (endFrame data) d1 = some d2 ∧
        d2.sent = d1.sent ++ [OK] ∧ StorageCall.apply_ ∉ d2.calls ∧
        d1.ota.updating = true ∧ d1.ota.currentLength = d1.ota.firmwareLength ∧
        crc.finalize d1.ota.crc = readUint32 data) ∧
    (d.ota.installing = false → ∀ storage, update storage d = some (d, false)) ∧
    (d.ota.installing = true → ∀ st : OTAStorage,
      update (some st) d =
        some (⟨d.ota, d.sent, d.calls ++ [StorageCall.close, StorageCall.apply_]⟩, true)) := by
  refine ⟨fun happly =>
    (runEvents_install_origin crc acc events d halted hrun).2 (Or.inr happly), ?_, ?_⟩
  · intro hinst storage
    simp [update, hinst]
  · intro hinst st
    simp [update, hinst, handleInstall, call]

set_option maxRecDepth 100000 in
theorem apply_only_after_end_ok_witness :
    runEvents standardCRC32
        [Event.tick (some ⟨fun _ => true, 0⟩),
          Event.write (some ⟨fun _ => true, 0⟩) (beginFrame [1, 0, 0, 0]),
          Event.write (some ⟨fun _ => true, 0⟩) (packageFrame [7]),
          Event.write (some ⟨fun _ => true, 0⟩) (endFrame [46, 122, 102, 76]),
          Event.tick (some ⟨fun _ => true, 0⟩)]
        (Device.start (initial 0)) =
      some (⟨⟨true, true, 1, 1, 3013182929⟩, [OK, OK, OK],
        [StorageCall.open_ 1, StorageCall.maxSize, StorageCall.write 7,
          StorageCall.close, StorageCall.apply_]⟩, true) ∧
    (StorageCall.apply_ ∈ (⟨⟨true, true, 1, 1, 3013182929⟩, [OK, OK, OK],
        [StorageCall.open_ 1, StorageCall.maxSize, StorageCall.write 7,
          StorageCall.close, StorageCall.apply_]⟩ : Device).calls →
      ∃ pre storage data post d1 d2,
        [Event.tick (some ⟨fun _ => true, 0⟩),
          Event.write (some ⟨fun _ => true, 0⟩) (beginFrame [1, 0, 0, 0]),
          Event.write (some ⟨fun _ => true, 0⟩) (packageFrame [7]),
          Event.write (some ⟨fun _ => true, 0⟩) (endFrame [46, 122, 102, 76]),
          Event.tick (some ⟨fun _ => true, 0⟩)] =
          pre ++ Event.write storage (endFrame data) :: post ∧
        runEvents standardCRC32 pre (Device.start (initial 0)) = some (d1, false) ∧
        onWrite standardCRC32 storage (endFrame data) d1 = some d2 ∧
        d2.sent = d1.sent ++ [OK] ∧ StorageCall.apply_ ∉ d2.calls ∧
        d1.ota.updating = true ∧ d1.ota.currentLength = d1.ota.firmwareLength ∧
        standardCRC32.finalize d1.ota.crc = readUint32 data) :=
  ⟨by decide,
    (apply_only_after_end_ok standardCRC32 0
      [Event.tick (some ⟨fun _ => true, 0⟩),
        Event.write (some ⟨fun _ => true, 0⟩) (beginFrame [1, 0, 0, 0]),
        Event.write (some ⟨fun _ => true, 0⟩) (packageFrame [7]),
        Event.write (some ⟨fun _ => true, 0⟩) (endFrame [46, 122, 102, 76]),
        Event.tick (some ⟨fun _ => true, 0⟩)]
      ⟨⟨true, true, 1, 1, 3013182929⟩, [OK, OK, OK],
        [StorageCall.open_ 1, StorageCall.maxSize, StorageCall.write 7,
          StorageCall.close, StorageCall.apply_]⟩ true (by decide)).1⟩

/-- C15: with the standard CRC-32 as checksum, take a transfer from the object as
constructed (BEGIN declaring the length of the firmware, PACKAGE frames carrying it, END
with a 4-byte payload) whose END frame is answered OK. The transfer that carries the same
firmware with one bit of one byte inverted, and the same END payload, has BEGIN and every
PACKAGE frame answered OK and END answered CHECKSUM_ERROR, and is aborted: `updating` and
`installing` false, both counters zero, storage `clear` and `close` called last. -/
theorem bit_flip_checksum_error (st : OTAStorage) (acc : Nat) (size sum front back : List Byte)
    (b : Byte) (k : Fin 8) (chunks flipped : List (List Byte)) (d1 : Device)
    (hsize : size.length = 4) (hsum : sum.length = 4)
    (hdecl : readUint32 size = (front ++ b :: back).length)
    (hopen : st.open_ (front ++ b :: back).length = true)
    (hchunks : chunks.flatten = front ++ b :: back)
    (hflipped : flipped.flatten = front ++ flipBit b k :: back)
    (hrun : run standardCRC32 (some st)
      (beginFrame size :: (chunks.map packageFrame ++ [endFrame sum]))
      (Device.start (initial acc)) = some d1)
    (hok : d1.sent = List.replicate (chunks.length + 1) OK ++ [OK]) :
    run standardCRC32 (some st)
        (beginFrame size :: (flipped.map packageFrame ++ [endFrame sum]))
        (Device.start (initial acc)) =
      some ⟨⟨false, false, 0, 0,
          (front ++ flipBit b k :: back).foldl standardCRC32.update standardCRC32.reset⟩,
        List.replicate (flipped.length + 1) OK ++ [CHECKSUM_ERROR],
        [StorageCall.open_ (front ++ b :: back).length] ++ capacityQueries st
          ++ (front ++ flipBit b k :: back).map StorageCall.write
          ++ [StorageCall.clear, StorageCall.close]⟩ := by
  have hlen : (front ++ flipBit b k :: back).length = (front ++ b :: back).length := by
    simp
  have hsumeq : readUint32 sum = standardCRC32.finalize
      ((front ++ b :: back).foldl standardCRC32.update standardCRC32.reset) := by
    by_contra hne
    rw [run_transfer standardCRC32 st acc size chunks sum hsize (by rw [hchunks]; exact hdecl)
      (by rw [hchunks]; exact hopen) hsum, hchunks, if_neg hne] at hrun
    rw [← Option.some.inj hrun] at hok
    simp [OK, CHECKSUM_ERROR] at hok
  have hdetect := standardCRC32_detects_flip front back b k
  rw [run_transfer standardCRC32 st acc size flipped sum hsize
    (by rw [hflipped, hlen]; exact hdecl) (by rw [hflipped, hlen]; exact hopen) hsum,
    hflipped, if_neg (by rw [hsumeq]; exact fun h => hdetect h.symm), hlen]

set_option maxRecDepth 100000 in
theorem bit_flip_checksum_error_witness :
    ([3, 0, 0, 0] : List Byte).length = 4 ∧ ([29, 128, 188, 85] : List Byte).length = 4 ∧
    readUint32 [3, 0, 0, 0] = (([1] : List Byte) ++ 2 :: [3]).length ∧
    (⟨fun _ => true, 0⟩ : OTAStorage).open_ (([1] : List Byte) ++ 2 :: [3]).length = true ∧
    ([[1, 2], [3]] : List (List Byte)).flatten = [1] ++ 2 :: [3] ∧
    ([[1, 3], [3]] : List (List Byte)).flatten = [1] ++ flipBit 2 0 :: [3] ∧
    run standardCRC32 (some ⟨fun _ => true, 0⟩)
        (beginFrame [3, 0, 0, 0] ::
          (([[1, 2], [3]] : List (List Byte)).map packageFrame ++ [endFrame [29, 128, 188, 85]]))
        (Device.start (initial 0)) =
      some ⟨⟨true, true, 3, 3, 2856550370⟩, [OK, OK, OK, OK],
        [StorageCall.open_ 3, StorageCall.maxSize, StorageCall.write 1, StorageCall.write 2,
          StorageCall.write 3]⟩ ∧
    run standardCRC32 (some ⟨fun _ => true, 0⟩)
        (beginFrame [3, 0, 0, 0] ::
          (([[1, 3], [3]] : List (List Byte)).map packageFrame ++ [endFrame [29, 128, 188, 85]]))
        (Device.start (initial 0)) =
      some ⟨⟨false, false, 0, 0,
          (([1] : List Byte) ++ flipBit 2 0 :: [3]).foldl standardCRC32.update
            standardCRC32.reset⟩,
        List.replicate (([[1, 3], [3]] : List (List Byte)).length + 1) OK ++ [CHECKSUM_ERROR],
        [StorageCall.open_ (([1] : List Byte) ++ 2 :: [3]).length]
          ++ capacityQueries ⟨fun _ => true, 0⟩
          ++ (([1] : List Byte) ++ flipBit 2 0 :: [3]).map StorageCall.write
          ++ [StorageCall.clear, StorageCall.close]⟩ :=
  ⟨rfl, rfl, rfl, rfl, rfl, by decide, by decide,
    bit_flip_checksum_error ⟨fun _ => true, 0⟩ 0 [3, 0, 0, 0] [29, 128, 188, 85] [1] [3] 2 0
      [[1, 2], [3]] [[1, 3], [3]]
      ⟨⟨true, true, 3, 3, 2856550370⟩, [OK, OK, OK, OK],
        [StorageCall.open_ 3, StorageCall.maxSize, StorageCall.write 1, StorageCall.write 2,
          StorageCall.write 3]⟩
      rfl rfl rfl rfl rfl (by decide) (by decide) rfl⟩

/-- C16: in every state reached from the object as constructed, a BEGIN frame with a 4-byte
payload is never answered INCORRECT_FIRMWARE_SIZE, whatever the storage and its `maxSize()`;
when the storage opens, the frame is answered OK and a transfer is running with the declared
size read from the payload, also when that size exceeds a nonzero `maxSize()`. -/
theorem begin_capacity_check_dead (crc : CRC32) (acc : Nat) (events : List Event)
    (d0 : Device) (halted : Bool) (data : List Byte)
    (hrun : runEvents crc events (Device.start (initial acc)) = some (d0, halted))
    (hlen : data.length = 4) :
    (∀ storage d, onWrite crc storage (beginFrame data) d0 = some d →
      d.sent ≠ d0.sent ++ [INCORRECT_FIRMWARE_SIZE]) ∧
    (∀ st : OTAStorage, st.open_ (readUint32 data) = true →
      ∃ d, onWrite crc (some st) (beginFrame data) d0 = some d ∧
        d.sent = d0.sent ++ [OK] ∧ d.ota.updating = true ∧
        d.ota.firmwareLength = readUint32 data ∧ d.ota.currentLength = 0) := by
  have hinv := runEvents_consistent crc events (Device.start (initial acc)) d0 halted hrun
    (fun _ => ⟨rfl, rfl⟩) (fun _ => Nat.le_refl 0)
  constructor
  · intro storage d hd
    rw [onWrite_beginFrame] at hd
    obtain ⟨d1, hd1, hrest⟩ := handleBegin_effect crc storage data d0 d hd
    have hcur : d1.ota.currentLength = 0 := by
      rcases hd1 with ⟨-, rfl⟩ | ⟨hu, rfl⟩
      · rfl
      · exact (hinv.1 hu).2
    have hsent : d1.sent = d0.sent := by
      rcases hd1 with ⟨-, rfl⟩ | ⟨-, rfl⟩ <;> rfl
    rcases hrest with ⟨-, rfl⟩ | ⟨-, cs, -, rfl⟩ | ⟨-, st, -, -, -, hlt, rfl⟩ |
      ⟨-, st, -, -, -, rfl⟩
    · simp [hsent, INCORRECT_FORMAT, INCORRECT_FIRMWARE_SIZE]
    · simp [hsent, INTERNAL_STORAGE_ERROR, INCORRECT_FIRMWARE_SIZE]
    · omega
    · simp [hsent, OK, INCORRECT_FIRMWARE_SIZE]
  · intro st hopen
    exact ⟨_, by rw [onWrite_beginFrame]
                 exact handleBegin_accepted crc st data d0 hlen hopen
                   (fun hu => (hinv.1 hu).2), rfl, rfl, rfl, rfl⟩

theorem begin_capacity_check_dead_witness :
    runEvents standardCRC32 [] (Device.start (initial 0)) =
      some (Device.start (initial 0), false) ∧
    ([10, 0, 0, 0] : List Byte).length = 4 ∧
    (⟨fun _ => true, 5⟩ : OTAStorage).open_ (readUint32 [10, 0, 0, 0]) = true ∧
    ∃ d, onWrite standardCRC32 (some ⟨fun _ => true, 5⟩) (beginFrame [10, 0, 0, 0])
        (Device.start (initial 0)) = some d ∧
      d.sent = (Device.start (initial 0)).sent ++ [OK] ∧ d.ota.updating = true ∧
      d.ota.firmwareLength = readUint32 [10, 0, 0, 0] ∧ d.ota.currentLength = 0 :=
  ⟨rfl, rfl, rfl,
    (begin_capacity_check_dead standardCRC32 0 [] (Device.start (initial 0)) false
      [10, 0, 0, 0] rfl rfl).2 ⟨fun _ => true, 5⟩ rfl⟩

/-- C17, as stated, fails on the order of the two calls: a PACKAGE frame of six bytes in a
transfer that declared four aborts with `clear` first and `close` second. -/
theorem abort_order_is_clear_close :
    onWrite standardCRC32 (some ⟨fun _ => true, 0⟩) (packageFrame [1, 2, 3, 4, 5, 6])
        (Device.start ⟨true, false, 4, 0, 99⟩) =
      some ⟨⟨false, false, 0, 0, 99⟩, [INCORRECT_FIRMWARE_SIZE],
        [StorageCall.clear, StorageCall.close]⟩ ∧
    [StorageCall.clear, StorageCall.close] ≠ [StorageCall.close, StorageCall.clear] := by
  decide

/-- C17 (amended): every abort makes exactly two storage calls, `clear` first and `close`
second, and leaves `updating` false and both counters zero. This is what `stopUpload` does,
and what a transfer sees at each place that aborts: a BEGIN frame continues from the aborted
object with the two calls made, a PACKAGE frame that overflows the declared size, an END
frame whose counters differ, and an END frame whose checksum differs end there. -/
theorem abort_clear_then_close (crc : CRC32) (st : OTAStorage) (s : ArduinoBleOTAClass)
    (data : List Byte) (hrecv : s.updating = true) :
    stopUpload (some st) (Device.start s) =
      some ⟨aborted s, [], [StorageCall.clear, StorageCall.close]⟩ ∧
    (aborted s).updating = false ∧ (aborted s).firmwareLength = 0 ∧
    (aborted s).currentLength = 0 ∧
    onWrite crc (some st) (beginFrame data) (Device.start s) =
      handleBegin crc (some st) data
        ⟨aborted s, [], [StorageCall.clear, StorageCall.close]⟩ ∧
    ((s.currentLength + data.length) % UINT32_MOD > s.firmwareLength →
      onWrite crc (some st) (packageFrame data) (Device.start s) =
        some ⟨aborted s, [INCORRECT_FIRMWARE_SIZE],
          [StorageCall.clear, StorageCall.close]⟩) ∧
    (s.currentLength ≠ s.firmwareLength →
      onWrite crc (some st) (endFrame data) (Device.start s) =
        some ⟨aborted s, [INCORRECT_FIRMWARE_SIZE],
          [StorageCall.clear, StorageCall.close]⟩) ∧
    (s.currentLength = s.firmwareLength → data.length = 4 →
      crc.finalize s.crc ≠ readUint32 data →
      onWrite crc (some st) (endFrame data) (Device.start s) =
        some ⟨aborted s, [CHECKSUM_ERROR], [StorageCall.clear, StorageCall.close]⟩) := by
  refine ⟨by simp [stopUpload_some, Device.start], rfl, rfl, rfl, ?_, ?_, ?_, ?_⟩
  · rw [onWrite_beginFrame]
    simp [handleBegin, hrecv, stopUpload_some, Device.start, aborted]
  · intro hover
    simp [onWrite_packageFrame, handlePackage, hrecv, hover, stopUpload_some, Device.start,
      send, aborted]
  · intro hne
    simp [onWrite_endFrame, handleEnd, hrecv, hne, stopUpload_some, Device.start, send]
  · intro heq hlen hcrc
    simp [onWrite_endFrame, handleEnd, hrecv, heq, hlen, hcrc, stopUpload_some, Device.start,
      send]

theorem abort_clear_then_close_witness :
    (⟨true, false, 4, 0, 99⟩ : ArduinoBleOTAClass).updating = true ∧
    onWrite standardCRC32 (some ⟨fun _ => true, 0⟩) (packageFrame [1, 2, 3, 4, 5, 6])
        (Device.start ⟨true, false, 4, 0, 99⟩) =
      some ⟨aborted ⟨true, false, 4, 0, 99⟩, [INCORRECT_FIRMWARE_SIZE],
        [StorageCall.clear, StorageCall.close]⟩ :=
  ⟨rfl, (abort_clear_then_close standardCRC32 ⟨fun _ => true, 0⟩ ⟨true, false, 4, 0, 99⟩
    [1, 2, 3, 4, 5, 6] rfl).2.2.2.2.2.1 (by decide)⟩

/-- C18: a BEGIN frame with payload `[b0, b1, b2, b3]` that the storage opens calls `open`
with the little-endian value `b0 + 256*b1 + 65536*b2 + 16777216*b3` and with no other value;
when the frame is answered OK the declared size is that value, and it is answered OK from
every state whose received counter is zero when no transfer runs. An END frame with payload
`[c0, c1, c2, c3]` on a complete transfer is answered OK exactly when the finalized checksum
equals the little-endian value of the payload, and CHECKSUM_ERROR otherwise. -/
theorem begin_end_little_endian (crc : CRC32) (st : OTAStorage) (s : ArduinoBleOTAClass)
    (b0 b1 b2 b3 : Byte) :
    (st.open_ (b0.val + 256 * b1.val + 65536 * b2.val + 16777216 * b3.val) = true →
      ∃ d, onWrite crc (some st) (beginFrame [b0, b1, b2, b3]) (Device.start s) = some d ∧
        StorageCall.open_ (b0.val + 256 * b1.val + 65536 * b2.val + 16777216 * b3.val)
          ∈ d.calls ∧
        (∀ n, StorageCall.open_ n ∈ d.calls →
          n = b0.val + 256 * b1.val + 65536 * b2.val + 16777216 * b3.val) ∧
        (d.sent = [OK] →
          d.ota.firmwareLength =
            b0.val + 256 * b1.val + 65536 * b2.val + 16777216 * b3.val) ∧
        ((s.updating = false → s.currentLength = 0) → d.sent = [OK])) ∧
    (s.updating = true → s.currentLength = s.firmwareLength →
      ∃ d, onWrite crc (some st) (endFrame [b0, b1, b2, b3]) (Device.start s) = some d ∧
        (d.sent = [OK] ↔
          crc.finalize s.crc =
            b0.val + 256 * b1.val + 65536 * b2.val + 16777216 * b3.val) ∧
        (d.sent = [CHECKSUM_ERROR] ↔
          crc.finalize s.crc ≠
            b0.val + 256 * b1.val + 65536 * b2.val + 16777216 * b3.val)) := by
  have hread : readUint32 [b0, b1, b2, b3] =
      b0.val + 256 * b1.val + 65536 * b2.val + 16777216 * b3.val := rfl
  constructor
  · intro hopen
    rw [onWrite_beginFrame]
    unfold handleBegin
    cases hu : s.updating
    all_goals
      simp only [Device.start, hu, stopUpload_some, Option.some_bind, if_true, if_false,
        Bool.false_eq_true, List.length_cons, List.length_nil]
      simp only [hread, hopen, capacityQueries]
      split_ifs
      all_goals simp_all [send, stopUpload_some, aborted, OK, INCORRECT_FIRMWARE_SIZE]
      all_goals omega
  · intro hrecv heq
    rw [onWrite_endFrame]
    by_cases hcrc : crc.finalize s.crc =
        b0.val + 256 * b1.val + 65536 * b2.val + 16777216 * b3.val
    · simp [handleEnd, hrecv, heq, hread, hcrc, Device.start, send, OK, CHECKSUM_ERROR]
    · simp [handleEnd, hrecv, heq, hread, hcrc, stopUpload_some, Device.start, send, OK,
        CHECKSUM_ERROR]

theorem begin_end_little_endian_witness :
    (⟨fun _ => true, 0⟩ : OTAStorage).open_
        ((1 : Byte).val + 256 * (2 : Byte).val + 65536 * (0 : Byte).val
          + 16777216 * (0 : Byte).val) = true ∧
    ∃ d, onWrite standardCRC32 (some ⟨fun _ => true, 0⟩) (beginFrame [1, 2, 0, 0])
        (Device.start (initial 0)) = some d ∧
      StorageCall.open_ ((1 : Byte).val + 256 * (2 : Byte).val + 65536 * (0 : Byte).val
          + 16777216 * (0 : Byte).val) ∈ d.calls ∧
      (∀ n, StorageCall.open_ n ∈ d.calls →
        n = (1 : Byte).val + 256 * (2 : Byte).val + 65536 * (0 : Byte).val
          + 16777216 * (0 : Byte).val) ∧
      (d.sent = [OK] →
        d.ota.firmwareLength = (1 : Byte).val + 256 * (2 : Byte).val + 65536 * (0 : Byte).val
          + 16777216 * (0 : Byte).val) ∧
      (((initial 0).updating = false → (initial 0).currentLength = 0) → d.sent = [OK]) :=
  ⟨rfl, (begin_end_little_endian standardCRC32 ⟨fun _ => true, 0⟩ (initial 0) 1 2 0 0).1 rfl⟩

/-- C19 at the failing input: a BEGIN frame declaring `2^32 - 1` bytes that the storage
opens, PACKAGE frames carrying `2^32 - 1` bytes in all, and one more PACKAGE byte. Every
frame is answered OK and the transfer is still running, but the received counter has wrapped
to zero while `2^32` bytes have been written since the storage was opened, one more than
the declared size. -/
theorem writes_exceed_declared (crc : CRC32) (st : OTAStorage) (acc : Nat)
    (chunks : List (List Byte))
    (hopen : st.open_ 4294967295 = true) (hlen : chunks.flatten.length = 4294967295) :
    ∃ d, run crc (some st)
        (beginFrame [255, 255, 255, 255] :: (chunks.map packageFrame ++ [packageFrame [0]]))
        (Device.start (initial acc)) = some d ∧
      d.sent = List.replicate (chunks.length + 1) OK ++ [OK] ∧
      d.ota.updating = true ∧ d.ota.firmwareLength = 4294967295 ∧
      d.ota.currentLength = 0 ∧ writesSinceOpen d.calls = 4294967296 := by
  have hread : readUint32 [255, 255, 255, 255] = 4294967295 := by rfl
  have hrun := run_begin_packages crc st [255, 255, 255, 255] chunks (Device.start (initial acc))
    rfl (by rw [hread]; exact hopen) (fun _ => rfl) (by rw [hread, hlen])
  have hwrap : (4294967295 + 1) % UINT32_MOD = 0 := by norm_num [UINT32_MOD]
  rw [← List.cons_append, run_append, hrun]
  simp only [Option.some_bind, run, onWrite_packageFrame, Option.bind_some]
  unfold handlePackage
  simp only [hread, hlen, List.length_singleton, hwrap]
  simp only [Bool.true_eq_false, if_false, gt_iff_lt, Nat.not_lt_zero, writeLoop_some,
    Option.map_some']
  refine ⟨_, rfl, ?_, rfl, rfl, rfl, ?_⟩
  · simp only [send, Device.start, List.nil_append]
  · show writesSinceOpen (((Device.start (initial acc)).calls ++
        (if (Device.start (initial acc)).ota.updating = true
          then [StorageCall.clear, StorageCall.close] else [])
        ++ [StorageCall.open_ 4294967295] ++ capacityQueries st
        ++ chunks.flatten.map StorageCall.write) ++ [StorageCall.write 0]) = 4294967296
    have hcount := writesSinceOpen_transfer ((Device.start (initial acc)).calls ++
        (if (Device.start (initial acc)).ota.updating = true
          then [StorageCall.clear, StorageCall.close] else [])) 4294967295 st chunks.flatten
    unfold writesSinceOpen at hcount ⊢
    rw [List.foldl_append, hcount, hlen]
    rfl

theorem writes_exceed_declared_witness :
    (⟨fun _ => true, 0⟩ : OTAStorage).open_ 4294967295 = true ∧
    (List.replicate 8388607 (List.replicate 512 (0 : Byte))
      ++ [List.replicate 511 (0 : Byte)]).flatten.length = 4294967295 ∧
    ∃ d, run standardCRC32 (some ⟨fun _ => true, 0⟩)
        (beginFrame [255, 255, 255, 255] ::
          ((List.replicate 8388607 (List.replicate 512 (0 : Byte))
              ++ [List.replicate 511 (0 : Byte)]).map packageFrame ++ [packageFrame [0]]))
        (Device.start (initial 0)) = some d ∧
      d.sent = List.replicate
        ((List.replicate 8388607 (List.replicate 512 (0 : Byte))
          ++ [List.replicate 511 (0 : Byte)]).length + 1) OK ++ [OK] ∧
      d.ota.updating = true ∧ d.ota.firmwareLength = 4294967295 ∧
      d.ota.currentLength = 0 ∧ writesSinceOpen d.calls = 4294967296 :=
  have hlen : (List.replicate 8388607 (List.replicate 512 (0 : Byte))
      ++ [List.replicate 511 (0 : Byte)]).flatten.length = 4294967295 := by
    simp only [List.flatten_append, List.length_append, List.length_flatten,
      List.map_replicate, List.length_replicate, List.sum_replicate, List.map_cons,
      List.map_nil, List.sum_cons, List.sum_nil, smul_eq_mul]
    rfl
  ⟨rfl, hlen,
    writes_exceed_declared standardCRC32 ⟨fun _ => true, 0⟩ 0
      (List.replicate 8388607 (List.replicate 512 (0 : Byte))
        ++ [List.replicate 511 (0 : Byte)]) rfl hlen⟩

end ArduinoBleOTA
